import Mathlib

/-!
Verification development for the DNS resolver fetch-and-aggregate pipeline
(`scripts/fetch_resolvers.py`).

The pipeline is a linear batch job: a paginated HTTP fetch with bounded
retry, a per-record normalizer over dynamically typed JSON dictionaries,
an aggregator computing grouped statistics, and a renderer producing
plain-text, JSON and CSV artifacts.

Embedding conventions:
* JSON values are modelled by `JValue` (numbers as exact rationals).
  Python float values are modelled by `PyFloat`: finite values as exact
  rationals plus the specials `inf`/`-inf`/`nan`; the string parser
  accepts Python's float literals including underscore digit grouping and
  the case-insensitive special words `inf`/`infinity`/`nan`.
* A raw API record is an association list `RawRecord`; `RawRecord.get`
  models `dict.get`.
* `RawResolver.from_api_response` models `Resolver.from_api_response`
  exactly as written: each `data.get(key, default)` stores whatever value
  the API supplied, with no type validation, so its fields are `JValue`s
  (except the uptimes, which really are coerced through `_to_float`).
* `Resolver` is the canonical typed record of the data model (the types
  annotated on the Python dataclass); the aggregator and renderer, which
  the source runs on such records, are modelled over it.
* File writes are modelled by returning the list of
  (relative path, content) pairs the run produces; the base path only
  selects the on-disk location and does not influence any content.
* Network effects are modelled by explicit outcome functions: a page
  fetch attempt either yields a parsed body or fails, and loops carry
  explicit fuel since the source's `while True` has no intrinsic bound.
-/

/-- A JSON value as delivered by the API and manipulated by the script. -/
inductive JValue where
  | null
  | bool (b : Bool)
  | num (q : ℚ)
  | str (s : String)
  | arr (elems : List JValue)
  | obj (fields : List (String × JValue))

/-- Python truthiness for the JSON values the script tests with `if x:`. -/
def JValue.truthy : JValue → Bool
  | JValue.null => false
  | JValue.bool b => b
  | JValue.num q => q != 0
  | JValue.str s => s != ""
  | JValue.arr l => !l.isEmpty
  | JValue.obj l => !l.isEmpty

/-- A raw API record: the key/value dictionary of one server entry. -/
abbrev RawRecord := List (String × JValue)

/-- `data.get(key)`: the stored value, or `none` when the key is absent. -/
def RawRecord.get (data : RawRecord) (key : String) : Option JValue :=
  (data.find? (fun kv => kv.1 == key)).map (fun kv => kv.2)

/-- `data.get(key, default)`. -/
def RawRecord.getD (data : RawRecord) (key : String) (default : JValue) : JValue :=
  (data.get key).getD default

/-- The value space of Python floats as far as this pipeline observes it:
finite values carried as exact rationals, plus the IEEE specials that
Python's `float` parses. The pipeline only stores and compares these
values, so modelling finite floats as exact rationals loses nothing a
claim depends on. -/
inductive PyFloat where
  | finite (q : ℚ)
  | inf
  | negInf
  | nan
  deriving DecidableEq

/-- The effect of a leading `-` sign on a parsed float; a leading `+` or
no sign leaves the value unchanged, and the sign of a NaN is not
observable. -/
def PyFloat.applySign (sign : Int) : PyFloat → PyFloat
  | PyFloat.finite q => if sign < 0 then PyFloat.finite (-q) else PyFloat.finite q
  | PyFloat.inf => if sign < 0 then PyFloat.negInf else PyFloat.inf
  | PyFloat.negInf => if sign < 0 then PyFloat.inf else PyFloat.negInf
  | PyFloat.nan => PyFloat.nan

/-- Accumulates a decimal digit string into a natural number; `none` as
soon as a non-digit is seen. -/
def digitsToNat (cs : List Char) : Option Nat :=
  cs.foldl
    (fun acc c =>
      match acc with
      | none => none
      | some a => if c.isDigit then some (a * 10 + (c.toNat - 48)) else none)
    (some 0)

/-- A digit group as Python's float literals accept it: ASCII digits with
single underscores strictly between digits ("1_000"); an empty group and
leading, trailing or doubled underscores are rejected. -/
def digitGroupOk : List Char → Bool
  | [] => false
  | [c] => c.isDigit
  | c :: '_' :: rest => c.isDigit && digitGroupOk rest
  | c :: rest => c.isDigit && digitGroupOk rest

/-- Parse a digit group: reject malformed underscore placement, then read
the digits with the underscores removed. -/
def parseDigitGroup (cs : List Char) : Option Nat :=
  if digitGroupOk cs then digitsToNat (cs.filter (fun c => c != '_')) else none

/-- Leading sign of a numeric literal, with the remaining characters. -/
def parseSign (cs : List Char) : Int × List Char :=
  match cs with
  | [] => (1, [])
  | c :: rest =>
    if c == '-' then (-1, rest)
    else if c == '+' then (1, rest)
    else (1, cs)

/-- Unsigned fixed-point part of a float literal: digit groups with an
optional decimal point (`"12"`, `"1_2."`, `".5"`, `"12.5_0"`). -/
def parseFixed (cs : List Char) : Option ℚ :=
  let isGroupChar := fun (c : Char) => c.isDigit || c == '_'
  let intPart := cs.takeWhile isGroupChar
  let rest := cs.dropWhile isGroupChar
  match rest with
  | [] => (parseDigitGroup intPart).map (fun n => (n : ℚ))
  | c :: frac =>
    if c == '.' then
      if intPart.isEmpty && frac.isEmpty then none
      else if intPart.isEmpty then
        (parseDigitGroup frac).map
          (fun m => (m : ℚ) / (10 : ℚ) ^ (frac.filter (fun c => c != '_')).length)
      else if frac.isEmpty then
        (parseDigitGroup intPart).map (fun n => (n : ℚ))
      else
        match parseDigitGroup intPart, parseDigitGroup frac with
        | some hi, some lo =>
          some ((hi : ℚ) + (lo : ℚ) / (10 : ℚ) ^ (frac.filter (fun c => c != '_')).length)
        | _, _ => none
    else none

/-- Unsigned mantissa with an optional `e`/`E` exponent (exponent digits
may use underscore grouping too). -/
def parseMantissaExp (cs : List Char) : Option ℚ :=
  let mant := cs.takeWhile (fun c => !(c == 'e' || c == 'E'))
  let rest := cs.dropWhile (fun c => !(c == 'e' || c == 'E'))
  match rest with
  | [] => parseFixed mant
  | _ :: expPart =>
    match parseFixed mant with
    | none => none
    | some m =>
      let se := parseSign expPart
      (parseDigitGroup se.2).map (fun e => m * (10 : ℚ) ^ (se.1 * (e : Int)))

/-- Leading and trailing whitespace removed, as Python's `float` strips
its string argument. -/
def trimChars (cs : List Char) : List Char :=
  ((cs.dropWhile (fun c => c.isWhitespace)).reverse.dropWhile
    (fun c => c.isWhitespace)).reverse

/-- The special words Python's `float` accepts, case-insensitively. -/
def parseSpecial (cs : List Char) : Option PyFloat :=
  let low := cs.map Char.toLower
  if low = [ 'i', 'n', 'f'] ∨ low = [ 'i', 'n', 'f', 'i', 'n', 'i', 't', 'y'] then
    some PyFloat.inf
  else if low = [ 'n', 'a', 'n'] then some PyFloat.nan
  else none

/-- Python's `float(str)`: optional surrounding whitespace and sign, then
either a special word ("inf", "infinity", "nan", in any case) or a decimal
literal with optional underscore grouping and exponent. -/
def parseFloat (s : String) : Option PyFloat :=
  let cs := trimChars s.toList
  let sr := parseSign cs
  match parseSpecial sr.2 with
  | some f => some (PyFloat.applySign sr.1 f)
  | none => (parseMantissaExp sr.2).map (fun q => PyFloat.applySign sr.1 (PyFloat.finite q))

/-- Python's `float(x)` on a JSON value: `none` models the
`ValueError`/`TypeError` that `_to_float` catches; every parseable string
— including the specials — yields its value. -/
def pyFloat : JValue → Option PyFloat
  | JValue.null => none
  | JValue.bool b => some (PyFloat.finite (if b then 1 else 0))
  | JValue.num q => some (PyFloat.finite q)
  | JValue.str s => parseFloat s
  | JValue.arr _ => none
  | JValue.obj _ => none

/-- `_to_float(value, default=0.0)`: the argument is `data.get(key)`, so a
missing key arrives as `none`; a stored JSON `null` is Python `None` as
well, and both take the `value is None` early return. A value `float`
parses — finite or special — is returned unchanged; only a raised
`ValueError`/`TypeError` falls back to the default. -/
def _to_float (value : Option JValue) (default : PyFloat := PyFloat.finite 0) : PyFloat :=
  match value with
  | none => default
  | some JValue.null => default
  | some v => (pyFloat v).getD default

/-- The result of `Resolver.from_api_response` exactly as the source
computes it: every non-uptime field stores the raw API value unmodified
(`data.get` performs no type validation), and only the uptimes pass
through `_to_float`, whose result is a Python float value (`PyFloat`). -/
structure RawResolver where
  ip : JValue
  version : JValue
  country_code : JValue
  country : JValue
  continent_code : JValue
  continent : JValue
  organization : JValue
  domain : JValue
  trusted : JValue
  anycast : JValue
  dnssec_aware : JValue
  dnssec_validating : JValue
  ad_blocking : JValue
  malware_blocking : JValue
  adult_blocking : JValue
  uptime_24h : PyFloat
  uptime_30d : PyFloat
  uptime_90d : PyFloat
  uptime_1y : PyFloat

/-- `Resolver.from_api_response(data)`: field-by-field `data.get` with the
source's defaults. -/
def RawResolver.from_api_response (data : RawRecord) : RawResolver where
  ip := data.getD "dns_server_ip_address" (JValue.str "")
  version := data.getD "dns_server_ip_address_version" (JValue.num 4)
  country_code := data.getD "country_id" (JValue.str "")
  country := data.getD "country_name" (JValue.str "")
  continent_code := data.getD "continent_id" (JValue.str "")
  continent := data.getD "continent_name" (JValue.str "")
  organization := data.getD "dns_server_organization" (JValue.str "")
  domain := data.getD "dns_server_domain" (JValue.str "")
  trusted := data.getD "dns_server_is_trusted" (JValue.bool false)
  anycast := data.getD "dns_server_is_anycast" (JValue.bool false)
  dnssec_aware := data.getD "dns_server_dnssec_aware" (JValue.bool false)
  dnssec_validating := data.getD "dns_server_dnssec_validating" (JValue.bool false)
  ad_blocking := data.getD "dns_server_is_ad_blocking" (JValue.bool false)
  malware_blocking := data.getD "dns_server_is_malware_blocking" (JValue.bool false)
  adult_blocking := data.getD "dns_server_is_porn_blocking" (JValue.bool false)
  uptime_24h := _to_float (data.get "dns_server_uptime_24h")
  uptime_30d := _to_float (data.get "dns_server_uptime_30d")
  uptime_90d := _to_float (data.get "dns_server_uptime_90d")
  uptime_1y := _to_float (data.get "dns_server_uptime_1y")

/-- `Config`: settings with the source's defaults. -/
structure Config where
  api_endpoint : String
  max_retries : Nat := 3
  retry_delay : Nat := 30
  request_timeout : Nat := 60
  per_page : Nat := 1000
  rate_limit_delay : ℚ := 1
  high_uptime_threshold : ℚ := 99

/-- The `for attempt in range(max_retries)` body of
`DNSApiClient._fetch_page`. `outcomes i` is the result of attempt `i`
(`some body` for a parsed 2xx response, `none` for a
`requests.RequestException`). The second component of the result
accumulates the total `time.sleep(retry_delay)` time; `none` models the
exception escaping after the final attempt fails. -/
def _fetch_page_loop (outcomes : Nat → Option JValue) (max_retries retry_delay attempt slept : Nat) :
    Option (JValue × Nat) :=
  if _h : attempt < max_retries then
    match outcomes attempt with
    | some page => some (page, slept)
    | none =>
      if attempt < max_retries - 1 then
        _fetch_page_loop outcomes max_retries retry_delay (attempt + 1) (slept + retry_delay)
      else none
  else none
termination_by max_retries - attempt

/-- `DNSApiClient._fetch_page`: run the attempt loop from attempt 0 with
no sleep time accumulated yet. -/
def _fetch_page (outcomes : Nat → Option JValue) (config : Config) : Option (JValue × Nat) :=
  _fetch_page_loop outcomes config.max_retries config.retry_delay 0 0

/-- The per-page body of `fetch_all_servers`: keep the records whose
`dns_server_is_online` value is truthy and normalize them, in page order. -/
def keptServers (servers : List RawRecord) : List RawResolver :=
  (servers.filter (fun s => ((s.get "dns_server_is_online").getD JValue.null).truthy)).map
    RawResolver.from_api_response

/-- The `while True` pagination loop of `DNSApiClient.fetch_all_servers`.
`api page` is the `data` array of the page body (transport succeeding;
the retry behaviour lives in `_fetch_page`). Returns the accumulated
normalized online records together with the list of pages requested;
`none` when the explicit fuel bound is exhausted before the loop breaks. -/
def fetch_all_servers_loop (api : Nat → List RawRecord) (per_page : Nat) :
    Nat → Nat → Option (List RawResolver × List Nat)
  | 0, _ => none
  | fuel + 1, page =>
    let servers := api page
    let kept := keptServers servers
    if servers.length < per_page then
      some (kept, [page])
    else
      match fetch_all_servers_loop api per_page fuel (page + 1) with
      | none => none
      | some (rest, pages) => some (kept ++ rest, page :: pages)

/-- `DNSApiClient.fetch_all_servers`: pagination starts at page 1. -/
def fetch_all_servers (api : Nat → List RawRecord) (config : Config) (fuel : Nat) :
    Option (List RawResolver × List Nat) :=
  fetch_all_servers_loop api config.per_page fuel 1

/-- An API whose total dataset is `all`, served in pages of `per_page`
records: page `p` (1-based) returns the `p`-th chunk. -/
def pagedApi (all : List RawRecord) (per_page page : Nat) : List RawRecord :=
  (all.drop ((page - 1) * per_page)).take per_page

/-- The canonical `Resolver` entity: the types annotated on the Python
dataclass. The aggregator and renderer operate on such records. -/
structure Resolver where
  ip : String
  version : Int
  country_code : String
  country : String
  continent_code : String
  continent : String
  organization : String
  domain : String
  trusted : Bool
  anycast : Bool
  dnssec_aware : Bool
  dnssec_validating : Bool
  ad_blocking : Bool
  malware_blocking : Bool
  adult_blocking : Bool
  uptime_24h : ℚ
  uptime_30d : ℚ
  uptime_90d : ℚ
  uptime_1y : ℚ
  deriving DecidableEq

instance : Inhabited Resolver :=
  ⟨⟨ "", 4, "", "", "", "", "", "", false, false, false, false, false, false, false, 0, 0, 0, 0⟩⟩

/-- `Resolver.to_json_dict`: nested JSON form of one record. -/
def Resolver.to_json_dict (r : Resolver) : JValue :=
  JValue.obj
    [ ("ip", JValue.str r.ip),
      ("version", JValue.num (r.version : ℚ)),
      ("country_code", JValue.str r.country_code),
      ("country", JValue.str r.country),
      ("continent_code", JValue.str r.continent_code),
      ("continent", JValue.str r.continent),
      ("organization", JValue.str r.organization),
      ("domain", JValue.str r.domain),
      ("trusted", JValue.bool r.trusted),
      ("anycast", JValue.bool r.anycast),
      ("dnssec", JValue.obj
        [ ("aware", JValue.bool r.dnssec_aware),
          ("validating", JValue.bool r.dnssec_validating) ]),
      ("blocking", JValue.obj
        [ ("ads", JValue.bool r.ad_blocking),
          ("malware", JValue.bool r.malware_blocking),
          ("adult", JValue.bool r.adult_blocking) ]),
      ("uptime", JValue.obj
        [ ("24h", JValue.num r.uptime_24h),
          ("30d", JValue.num r.uptime_30d),
          ("90d", JValue.num r.uptime_90d),
          ("1y", JValue.num r.uptime_1y) ]) ]

/-- `Resolver.to_csv_row`: flat dictionary of one record. -/
def Resolver.to_csv_row (r : Resolver) : List (String × JValue) :=
  [ ("ip", JValue.str r.ip),
    ("version", JValue.num (r.version : ℚ)),
    ("country_code", JValue.str r.country_code),
    ("country", JValue.str r.country),
    ("continent_code", JValue.str r.continent_code),
    ("continent", JValue.str r.continent),
    ("organization", JValue.str r.organization),
    ("domain", JValue.str r.domain),
    ("trusted", JValue.bool r.trusted),
    ("anycast", JValue.bool r.anycast),
    ("dnssec_aware", JValue.bool r.dnssec_aware),
    ("dnssec_validating", JValue.bool r.dnssec_validating),
    ("ad_blocking", JValue.bool r.ad_blocking),
    ("malware_blocking", JValue.bool r.malware_blocking),
    ("adult_blocking", JValue.bool r.adult_blocking),
    ("uptime_24h", JValue.num r.uptime_24h),
    ("uptime_30d", JValue.num r.uptime_30d),
    ("uptime_90d", JValue.num r.uptime_90d),
    ("uptime_1y", JValue.num r.uptime_1y) ]

/-- Stable insertion step: `a` goes before the first element `b` with
`le a b`. With `le x y` meaning "x may stay before y", this reproduces
the order of Python's stable `sorted`. -/
def insertLe {α : Type} (le : α → α → Bool) (a : α) : List α → List α
  | [] => [a]
  | b :: l => if le a b then a :: b :: l else b :: insertLe le a l

/-- Stable insertion sort, the order produced by Python's `sorted`
(sortedness plus stability determine the output uniquely). -/
def sortLe {α : Type} (le : α → α → Bool) : List α → List α
  | [] => []
  | a :: l => insertLe le a (sortLe le l)

/-- `defaultdict(int)` update `d[k] += 1`: first occurrence appends the
key, later ones increment in place. -/
def bumpCount (k : String) : List (String × Nat) → List (String × Nat)
  | [] => [(k, 1)]
  | (k', n) :: rest =>
    if k' = k then (k', n + 1) :: rest else (k', n) :: bumpCount k rest

/-- The continent-dictionary update of `_calculate_stats`: the name is
overwritten on every record with this code, and the count incremented. -/
def bumpContinent (code name : String) :
    List (String × String × Nat) → List (String × String × Nat)
  | [] => [(code, name, 1)]
  | (c, entry) :: rest =>
    if c = code then (c, name, entry.2 + 1) :: rest
    else (c, entry) :: bumpContinent code name rest

/-- `defaultdict(list)` update `d[k].append(r)`. -/
def addToBucket (k : String) (r : Resolver) :
    List (String × List Resolver) → List (String × List Resolver)
  | [] => [(k, [r])]
  | (k', g) :: rest =>
    if k' = k then (k', g ++ [r]) :: rest else (k', g) :: addToBucket k r rest

/-- One grouping pass `for r in resolvers: if keep r: d[key r].append(r)`. -/
def buckets (keep : Resolver → Bool) (key : Resolver → String) (resolvers : List Resolver) :
    List (String × List Resolver) :=
  resolvers.foldl (fun acc r => if keep r then addToBucket (key r) r acc else acc) []

/-- The `countries` tally of `_calculate_stats` (one accumulator of the
source's single pass, split out since the three dictionaries do not
interact). -/
def countriesTally (resolvers : List Resolver) : List (String × Nat) :=
  resolvers.foldl
    (fun acc r => if r.country_code ≠ "" then bumpCount r.country_code acc else acc) []

/-- The `continents` dictionary of `_calculate_stats`: code to
(name, count). -/
def continentsTally (resolvers : List Resolver) : List (String × String × Nat) :=
  resolvers.foldl
    (fun acc r =>
      if r.continent_code ≠ "" then bumpContinent r.continent_code r.continent acc else acc)
    []

/-- The `organizations` tally of `_calculate_stats`. -/
def organizationsTally (resolvers : List Resolver) : List (String × Nat) :=
  resolvers.foldl
    (fun acc r => if r.organization ≠ "" then bumpCount r.organization acc else acc) []

/-- `sorted(countries.items(), key=lambda x: -x[1])`: stable sort by
descending count. -/
def sorted_countries (resolvers : List Resolver) : List (String × Nat) :=
  sortLe (fun a b => decide (b.2 ≤ a.2)) (countriesTally resolvers)

/-- The `top_countries` dictionary: for each code in descending-count
order, the display name of the first resolver carrying that code
(`next((r for r in resolvers if r.country_code == code), None)`); the
code is skipped when no resolver matches. -/
def top_countries (resolvers : List Resolver) : List (String × String × Nat) :=
  (sorted_countries resolvers).filterMap
    (fun ck =>
      (resolvers.find? (fun r => r.country_code == ck.1)).map
        (fun r => (ck.1, r.country, ck.2)))

/-- `sorted(organizations.items(), key=lambda x: -x[1])[:20]`. -/
def top_orgs (resolvers : List Resolver) : List (String × Nat) :=
  (sortLe (fun a b => decide (b.2 ≤ a.2)) (organizationsTally resolvers)).take 20

/-- The generator: the source also carries the output base path, which
selects where files land but never their content; the timestamp is
captured once at construction. -/
structure FileGenerator where
  base_path : String
  timestamp : String

/-- The statistics dictionary returned by `_calculate_stats`, as a
structure (its JSON rendering is `Stats.toJValue`). -/
structure Stats where
  last_updated : String
  update_frequency : String
  data_source : String
  totals_servers : Nat
  totals_servers_ipv4 : Nat
  totals_servers_ipv6 : Nat
  totals_countries : Nat
  totals_continents : Nat
  totals_organizations : Nat
  feature_online : Nat
  feature_trusted : Nat
  feature_dnssec_aware : Nat
  feature_dnssec_validating : Nat
  feature_ad_blocking : Nat
  feature_malware_blocking : Nat
  feature_adult_blocking : Nat
  feature_anycast : Nat
  feature_high_uptime_30d : Nat
  by_continent : List (String × String × Nat)
  by_country : List (String × String × Nat)
  top_organizations : List (String × Nat)
  deriving DecidableEq

/-- `FileGenerator._calculate_stats`. `by_continent` is
`sorted(continents.items())` (keys are distinct, so the sort compares
codes only); `by_country` is the `top_countries` dictionary in
descending-count order. -/
def FileGenerator._calculate_stats (g : FileGenerator) (resolvers : List Resolver)
    (config : Config) : Stats where
  last_updated := g.timestamp
  update_frequency := "twice daily"
  data_source := "https://dnsdirectory.com"
  totals_servers := resolvers.length
  totals_servers_ipv4 := (resolvers.filter (fun r => r.version == 4)).length
  totals_servers_ipv6 := (resolvers.filter (fun r => r.version == 6)).length
  totals_countries := (countriesTally resolvers).length
  totals_continents := (continentsTally resolvers).length
  totals_organizations := (organizationsTally resolvers).length
  feature_online := resolvers.length
  feature_trusted := (resolvers.filter (fun r => r.trusted)).length
  feature_dnssec_aware := (resolvers.filter (fun r => r.dnssec_aware)).length
  feature_dnssec_validating := (resolvers.filter (fun r => r.dnssec_validating)).length
  feature_ad_blocking := (resolvers.filter (fun r => r.ad_blocking)).length
  feature_malware_blocking := (resolvers.filter (fun r => r.malware_blocking)).length
  feature_adult_blocking := (resolvers.filter (fun r => r.adult_blocking)).length
  feature_anycast := (resolvers.filter (fun r => r.anycast)).length
  feature_high_uptime_30d :=
    (resolvers.filter (fun r => decide (config.high_uptime_threshold ≤ r.uptime_30d))).length
  by_continent := sortLe (fun a b => decide (a.1 ≤ b.1)) (continentsTally resolvers)
  by_country := top_countries resolvers
  top_organizations := top_orgs resolvers

/-- One generated artifact's content. -/
inductive Artifact where
  | txt (content : String)
  | json (content : JValue)
  | csv (fieldnames : List String) (rows : List (List JValue))

/-- `FileGenerator._generate_txt_header`. -/
def FileGenerator._generate_txt_header (g : FileGenerator) (title : String) (count : Nat)
    (usage_example : Option String) : String :=
  let baseLines :=
    [ "# " ++ title,
      "# Source: https://dnsdirectory.com",
      "# Updated: " ++ g.timestamp,
      "# Total: " ++ toString count ++ " servers",
      "#" ]
  let lines :=
    match usage_example with
    | some u => baseLines ++ [ "# Usage: " ++ u, "#" ]
    | none => baseLines
  String.intercalate "\n" lines

/-- `sorted(set(r.ip for r in resolvers))`: the deduplicated IPs in
ascending lexicographic order. -/
def txt_ips (resolvers : List Resolver) : List String :=
  sortLe (fun a b => decide (a ≤ b)) ((resolvers.map (fun r => r.ip)).dedup)

/-- `FileGenerator._write_txt_file`: header followed by one IP per line. -/
def FileGenerator._write_txt_file (g : FileGenerator) (relative_path title : String)
    (resolvers : List Resolver) (usage_example : Option String) : String × Artifact :=
  let ips := txt_ips resolvers
  let header := FileGenerator._generate_txt_header g title ips.length usage_example
  (relative_path, Artifact.txt (header ++ "\n" ++ String.intercalate "\n" ips ++ "\n"))

/-- `FileGenerator._generate_global_txt_files`. The high-uptime title
renders the threshold with `toString`, which abstracts Python's float
formatting: the f-string prints the default threshold 99.0 as "99.0",
`toString (99 : ℚ)` as "99" — a byte-level detail of one header line that
no claim depends on. -/
def FileGenerator._generate_global_txt_files (g : FileGenerator) (resolvers : List Resolver)
    (config : Config) : List (String × Artifact) :=
  let ipv4 := resolvers.filter (fun r => r.version == 4)
  let ipv6 := resolvers.filter (fun r => r.version == 6)
  [ FileGenerator._write_txt_file g "resolvers/global/all.txt"
      "Public DNS Servers - All IPv4" ipv4 (some "massdns -r all.txt -t A domains.txt"),
    FileGenerator._write_txt_file g "resolvers/global/all-ipv6.txt"
      "Public DNS Servers - All IPv6" ipv6 none,
    FileGenerator._write_txt_file g "resolvers/global/trusted.txt"
      "Public DNS Servers - Trusted Providers (IPv4)"
      (ipv4.filter (fun r => r.trusted)) (some "massdns -r trusted.txt -t A domains.txt"),
    FileGenerator._write_txt_file g "resolvers/global/trusted-ipv6.txt"
      "Public DNS Servers - Trusted Providers (IPv6)"
      (ipv6.filter (fun r => r.trusted)) none,
    FileGenerator._write_txt_file g "resolvers/global/dnssec.txt"
      "Public DNS Servers - DNSSEC Validating (IPv4)"
      (ipv4.filter (fun r => r.dnssec_validating)) none,
    FileGenerator._write_txt_file g "resolvers/global/dnssec-ipv6.txt"
      "Public DNS Servers - DNSSEC Validating (IPv6)"
      (ipv6.filter (fun r => r.dnssec_validating)) none,
    FileGenerator._write_txt_file g "resolvers/global/ad-blocking.txt"
      "Public DNS Servers - Ad Blocking (IPv4)"
      (ipv4.filter (fun r => r.ad_blocking)) none,
    FileGenerator._write_txt_file g "resolvers/global/malware-blocking.txt"
      "Public DNS Servers - Malware Blocking (IPv4)"
      (ipv4.filter (fun r => r.malware_blocking)) none,
    FileGenerator._write_txt_file g "resolvers/global/family-safe.txt"
      "Public DNS Servers - Family Safe / Adult Blocking (IPv4)"
      (ipv4.filter (fun r => r.adult_blocking)) none,
    FileGenerator._write_txt_file g "resolvers/global/high-uptime.txt"
      ("Public DNS Servers - High Uptime >=" ++ toString config.high_uptime_threshold
        ++ "% (IPv4)")
      (ipv4.filter (fun r => decide (config.high_uptime_threshold ≤ r.uptime_30d))) none ]

/-- `FileGenerator._generate_country_txt_files` (IPv4). -/
def FileGenerator._generate_country_txt_files (g : FileGenerator) (resolvers : List Resolver) :
    List (String × Artifact) :=
  let by_country := buckets (fun r => r.version == 4 && r.country_code != "")
    (fun r => r.country_code) resolvers
  (sortLe (fun a b => decide (a.1 ≤ b.1)) by_country).map
    (fun cg =>
      let country_name :=
        match cg.2.head? with
        | some r => r.country
        | none => cg.1
      FileGenerator._write_txt_file g ("resolvers/by-country/" ++ cg.1 ++ ".txt")
        ("Public DNS Servers - " ++ country_name ++ " (" ++ cg.1 ++ ")") cg.2
        (some ("massdns -r " ++ cg.1 ++ ".txt -t A domains.txt")))

/-- `FileGenerator._generate_country_ipv6_txt_files`. -/
def FileGenerator._generate_country_ipv6_txt_files (g : FileGenerator)
    (resolvers : List Resolver) : List (String × Artifact) :=
  let by_country := buckets (fun r => r.version == 6 && r.country_code != "")
    (fun r => r.country_code) resolvers
  (sortLe (fun a b => decide (a.1 ≤ b.1)) by_country).map
    (fun cg =>
      let country_name :=
        match cg.2.head? with
        | some r => r.country
        | none => cg.1
      FileGenerator._write_txt_file g ("resolvers/by-country-ipv6/" ++ cg.1 ++ ".txt")
        ("Public DNS Servers - " ++ country_name ++ " (" ++ cg.1 ++ ") - IPv6") cg.2 none)

/-- `FileGenerator._generate_continent_txt_files`. -/
def FileGenerator._generate_continent_txt_files (g : FileGenerator) (resolvers : List Resolver) :
    List (String × Artifact) :=
  let by_continent := buckets (fun r => r.continent_code != "")
    (fun r => r.continent_code) resolvers
  (sortLe (fun a b => decide (a.1 ≤ b.1)) by_continent).map
    (fun cg =>
      let continent_name :=
        match cg.2.head? with
        | some r => r.continent
        | none => cg.1
      FileGenerator._write_txt_file g ("resolvers/by-continent/" ++ cg.1 ++ ".txt")
        ("Public DNS Servers - " ++ continent_name ++ " (" ++ cg.1 ++ ")") cg.2
        (some ("massdns -r " ++ cg.1 ++ ".txt -t A domains.txt")))

/-- `FileGenerator._generate_main_json`. -/
def FileGenerator._generate_main_json (g : FileGenerator) (resolvers : List Resolver)
    (stats : Stats) : String × Artifact :=
  ("data/resolvers.json", Artifact.json (JValue.obj
    [ ("metadata", JValue.obj
        [ ("source", JValue.str "https://dnsdirectory.com"),
          ("generated_at", JValue.str g.timestamp),
          ("total_servers", JValue.num (resolvers.length : ℚ)),
          ("total_countries", JValue.num (stats.totals_countries : ℚ)),
          ("total_continents", JValue.num (stats.totals_continents : ℚ)) ]),
      ("statistics", JValue.obj
        [ ("by_ip_version", JValue.obj
            [ ("ipv4", JValue.num (stats.totals_servers_ipv4 : ℚ)),
              ("ipv6", JValue.num (stats.totals_servers_ipv6 : ℚ)) ]),
          ("by_feature", JValue.obj
            [ ("trusted", JValue.num (stats.feature_trusted : ℚ)),
              ("dnssec_validating", JValue.num (stats.feature_dnssec_validating : ℚ)),
              ("ad_blocking", JValue.num (stats.feature_ad_blocking : ℚ)),
              ("malware_blocking", JValue.num (stats.feature_malware_blocking : ℚ)),
              ("adult_blocking", JValue.num (stats.feature_adult_blocking : ℚ)) ]),
          ("top_countries", JValue.arr ((stats.by_country.take 10).map
            (fun e => JValue.obj
              [ ("code", JValue.str e.1),
                ("name", JValue.str e.2.1),
                ("count", JValue.num (e.2.2 : ℚ)) ]))) ]),
      ("resolvers", JValue.arr (resolvers.map Resolver.to_json_dict)) ]))

/-- `FileGenerator._generate_minimal_json`. -/
def FileGenerator._generate_minimal_json (g : FileGenerator) (resolvers : List Resolver) :
    String × Artifact :=
  ("data/resolvers-minimal.json", Artifact.json (JValue.obj
    [ ("generated_at", JValue.str g.timestamp),
      ("resolvers", JValue.arr (resolvers.map
        (fun r => JValue.obj
          [ ("ip", JValue.str r.ip),
            ("country", JValue.str r.country_code),
            ("trusted", JValue.bool r.trusted) ]))) ]))

/-- `FileGenerator._generate_country_json_files`: the metadata display
names come from `country_resolvers[0]`, the first record (in input order)
carrying the country code. -/
def FileGenerator._generate_country_json_files (g : FileGenerator) (resolvers : List Resolver) :
    List (String × Artifact) :=
  let by_country := buckets (fun r => r.country_code != "") (fun r => r.country_code) resolvers
  (sortLe (fun a b => decide (a.1 ≤ b.1)) by_country).map
    (fun cg =>
      let first := cg.2.headD default
      ("data/by-country/" ++ cg.1 ++ ".json", Artifact.json (JValue.obj
        [ ("metadata", JValue.obj
            [ ("country_code", JValue.str cg.1),
              ("country_name", JValue.str first.country),
              ("continent_code", JValue.str first.continent_code),
              ("continent_name", JValue.str first.continent),
              ("generated_at", JValue.str g.timestamp),
              ("total_servers", JValue.num (cg.2.length : ℚ)) ]),
          ("resolvers", JValue.arr (cg.2.map Resolver.to_json_dict)) ])))

/-- `FileGenerator._generate_continent_json_files`. -/
def FileGenerator._generate_continent_json_files (g : FileGenerator)
    (resolvers : List Resolver) : List (String × Artifact) :=
  let by_continent := buckets (fun r => r.continent_code != "")
    (fun r => r.continent_code) resolvers
  (sortLe (fun a b => decide (a.1 ≤ b.1)) by_continent).map
    (fun cg =>
      let first := cg.2.headD default
      ("data/by-continent/" ++ cg.1 ++ ".json", Artifact.json (JValue.obj
        [ ("metadata", JValue.obj
            [ ("continent_code", JValue.str cg.1),
              ("continent_name", JValue.str first.continent),
              ("generated_at", JValue.str g.timestamp),
              ("total_servers", JValue.num (cg.2.length : ℚ)) ]),
          ("resolvers", JValue.arr (cg.2.map Resolver.to_json_dict)) ])))

/-- The JSON rendering of the statistics dictionary (the source builds
this dictionary directly in `_calculate_stats`; we split the computed
fields from their JSON form). -/
def Stats.toJValue (s : Stats) : JValue :=
  JValue.obj
    [ ("last_updated", JValue.str s.last_updated),
      ("update_frequency", JValue.str s.update_frequency),
      ("data_source", JValue.str s.data_source),
      ("totals", JValue.obj
        [ ("servers", JValue.num (s.totals_servers : ℚ)),
          ("servers_ipv4", JValue.num (s.totals_servers_ipv4 : ℚ)),
          ("servers_ipv6", JValue.num (s.totals_servers_ipv6 : ℚ)),
          ("countries", JValue.num (s.totals_countries : ℚ)),
          ("continents", JValue.num (s.totals_continents : ℚ)),
          ("organizations", JValue.num (s.totals_organizations : ℚ)) ]),
      ("by_feature", JValue.obj
        [ ("online", JValue.num (s.feature_online : ℚ)),
          ("trusted", JValue.num (s.feature_trusted : ℚ)),
          ("dnssec_aware", JValue.num (s.feature_dnssec_aware : ℚ)),
          ("dnssec_validating", JValue.num (s.feature_dnssec_validating : ℚ)),
          ("ad_blocking", JValue.num (s.feature_ad_blocking : ℚ)),
          ("malware_blocking", JValue.num (s.feature_malware_blocking : ℚ)),
          ("adult_blocking", JValue.num (s.feature_adult_blocking : ℚ)),
          ("anycast", JValue.num (s.feature_anycast : ℚ)),
          ("high_uptime_30d", JValue.num (s.feature_high_uptime_30d : ℚ)) ]),
      ("by_continent", JValue.obj (s.by_continent.map
        (fun e => (e.1, JValue.obj
          [ ("name", JValue.str e.2.1),
            ("count", JValue.num (e.2.2 : ℚ)) ])))),
      ("by_country", JValue.obj (s.by_country.map
        (fun e => (e.1, JValue.obj
          [ ("name", JValue.str e.2.1),
            ("count", JValue.num (e.2.2 : ℚ)) ])))),
      ("top_organizations", JValue.arr (s.top_organizations.map
        (fun e => JValue.obj
          [ ("name", JValue.str e.1),
            ("count", JValue.num (e.2 : ℚ)) ]))) ]

/-- `FileGenerator._generate_stats_json`. -/
def FileGenerator._generate_stats_json (_g : FileGenerator) (stats : Stats) :
    String × Artifact :=
  ("data/stats.json", Artifact.json stats.toJValue)

/-- The CSV column order of `_generate_csv`. -/
def csvFieldnames : List String :=
  [ "ip", "version", "country_code", "country", "continent_code", "continent",
    "organization", "domain", "trusted", "anycast", "dnssec_aware", "dnssec_validating",
    "ad_blocking", "malware_blocking", "adult_blocking",
    "uptime_24h", "uptime_30d", "uptime_90d", "uptime_1y" ]

/-- `csv.DictWriter.writerow`: the row dictionary read back in fieldname
order. -/
def rowValue (row : List (String × JValue)) (k : String) : JValue :=
  ((row.find? (fun kv => kv.1 == k)).map (fun kv => kv.2)).getD JValue.null

/-- The data rows of `resolvers.csv`: one row per input record. -/
def csvRows (resolvers : List Resolver) : List (List JValue) :=
  resolvers.map (fun r => csvFieldnames.map (fun k => rowValue (r.to_csv_row) k))

/-- `FileGenerator._generate_csv`. -/
def FileGenerator._generate_csv (_g : FileGenerator) (resolvers : List Resolver) :
    String × Artifact :=
  ("data/resolvers.csv", Artifact.csv csvFieldnames (csvRows resolvers))

/-- `FileGenerator.generate_all`: statistics computed once, then every
artifact in the source's order. -/
def FileGenerator.generate_all (g : FileGenerator) (resolvers : List Resolver)
    (config : Config) : List (String × Artifact) :=
  let stats := FileGenerator._calculate_stats g resolvers config
  FileGenerator._generate_global_txt_files g resolvers config
    ++ FileGenerator._generate_country_txt_files g resolvers
    ++ FileGenerator._generate_country_ipv6_txt_files g resolvers
    ++ FileGenerator._generate_continent_txt_files g resolvers
    ++ [ FileGenerator._generate_main_json g resolvers stats,
         FileGenerator._generate_minimal_json g resolvers ]
    ++ FileGenerator._generate_country_json_files g resolvers
    ++ FileGenerator._generate_continent_json_files g resolvers
    ++ [ FileGenerator._generate_stats_json g stats,
         FileGenerator._generate_csv g resolvers ]

/-- `main` after configuration load: the fetch either fails (transport
error escaping `_fetch_page`) or yields the resolver collection; an empty
collection exits with code 1 before any artifact is generated. The second
component is the list of artifacts written. -/
def mainRun (fetch_result : Except Unit (List Resolver)) (g : FileGenerator)
    (config : Config) : Nat × List (String × Artifact) :=
  match fetch_result with
  | Except.error _ => (1, [])
  | Except.ok resolvers =>
    if resolvers.isEmpty then (1, [])
    else (0, FileGenerator.generate_all g resolvers config)

/-- Two records sharing continent code EU (continent names X then Y) and
country code FR (country names A then B): sample data exhibiting the
order-dependence of group display names. -/
def nameOrderSample : List Resolver :=
  [ ⟨ "1.1.1.1", 4, "FR", "A", "EU", "X", "o", "", false, false, false, false,
      false, false, false, 0, 0, 0, 0⟩,
    ⟨ "2.2.2.2", 4, "FR", "B", "EU", "Y", "o", "", false, false, false, false,
      false, false, false, 0, 0, 0, 0⟩ ]

/-! ### Generic lemmas about the embedded list operations -/

theorem insertLe_perm {α : Type} (le : α → α → Bool) (a : α) (l : List α) :
    (insertLe le a l).Perm (a :: l) := by
  induction l with
  | nil => exact List.Perm.refl _
  | cons b l ih =>
    simp only [insertLe]
    split
    · exact List.Perm.refl _
    · exact (ih.cons b).trans (List.Perm.swap a b l)

theorem sortLe_perm {α : Type} (le : α → α → Bool) (l : List α) : (sortLe le l).Perm l := by
  induction l with
  | nil => exact List.Perm.refl _
  | cons a l ih => exact (insertLe_perm le a (sortLe le l)).trans (ih.cons a)

theorem mem_insertLe {α : Type} {le : α → α → Bool} {a x : α} {l : List α} :
    x ∈ insertLe le a l ↔ x = a ∨ x ∈ l := by
  rw [(insertLe_perm le a l).mem_iff, List.mem_cons]

theorem mem_sortLe {α : Type} {le : α → α → Bool} {x : α} {l : List α} :
    x ∈ sortLe le l ↔ x ∈ l := (sortLe_perm le l).mem_iff

theorem pairwise_insertLe {α : Type} {le : α → α → Bool}
    (htot : ∀ a b, le a b = true ∨ le b a = true)
    (htrans : ∀ a b c, le a b = true → le b c = true → le a c = true)
    (a : α) {l : List α} (h : l.Pairwise (fun x y => le x y = true)) :
    (insertLe le a l).Pairwise (fun x y => le x y = true) := by
  induction l with
  | nil => simp [insertLe]
  | cons b l ih =>
    rcases List.pairwise_cons.mp h with ⟨hb, hl⟩
    simp only [insertLe]
    split
    case isTrue hab =>
      refine List.pairwise_cons.mpr ⟨?_, h⟩
      intro x hx
      rcases List.mem_cons.mp hx with rfl | hx
      · exact hab
      · exact htrans a b x hab (hb x hx)
    case isFalse hab =>
      refine List.pairwise_cons.mpr ⟨?_, ih hl⟩
      intro x hx
      rcases mem_insertLe.mp hx with hxa | hx
      · rw [hxa]
        rcases htot a b with h' | h'
        · exact absurd h' hab
        · exact h'
      · exact hb x hx

theorem pairwise_sortLe {α : Type} {le : α → α → Bool}
    (htot : ∀ a b, le a b = true ∨ le b a = true)
    (htrans : ∀ a b c, le a b = true → le b c = true → le a c = true)
    (l : List α) : (sortLe le l).Pairwise (fun x y => le x y = true) := by
  induction l with
  | nil => simp [sortLe]
  | cons a l ih => exact pairwise_insertLe htot htrans a ih

theorem pairwise_filterMap_of {α β : Type} {R : α → α → Prop} {S : β → β → Prop}
    (f : α → Option β)
    (hf : ∀ a a' b b', R a a' → f a = some b → f a' = some b' → S b b')
    {l : List α} (h : l.Pairwise R) : (l.filterMap f).Pairwise S := by
  induction l with
  | nil => simp
  | cons a l ih =>
    rcases List.pairwise_cons.mp h with ⟨ha, hl⟩
    rw [List.filterMap_cons]
    cases hfa : f a with
    | none => exact ih hl
    | some b =>
      refine List.pairwise_cons.mpr ⟨?_, ih hl⟩
      intro b' hb'
      rcases List.mem_filterMap.mp hb' with ⟨a', ha', hfa'⟩
      exact hf a a' b b' (ha a' ha') hfa hfa'

/-! ### Lemmas about the tally dictionaries -/

theorem bumpCount_sum (k : String) (l : List (String × Nat)) :
    ((bumpCount k l).map (fun e => e.2)).sum = ((l.map (fun e => e.2)).sum) + 1 := by
  induction l with
  | nil => simp [bumpCount]
  | cons e l ih =>
    obtain ⟨k', n⟩ := e
    simp only [bumpCount]
    split
    · simp [List.map_cons]; omega
    · simp only [List.map_cons, List.sum_cons, ih]; omega

theorem bumpCount_keys (k : String) (l : List (String × Nat)) :
    (bumpCount k l).map (fun e => e.1)
      = if k ∈ l.map (fun e => e.1) then l.map (fun e => e.1)
        else l.map (fun e => e.1) ++ [k] := by
  induction l with
  | nil => simp [bumpCount]
  | cons e l ih =>
    obtain ⟨k', n⟩ := e
    simp only [bumpCount]
    split
    case isTrue h =>
      subst h
      simp [List.map_cons]
    case isFalse h =>
      have hne : k ≠ k' := fun hh => h hh.symm
      simp only [List.map_cons, ih, List.mem_cons]
      by_cases hk : k ∈ l.map (fun e => e.1)
      · simp [hk, hne]
      · simp [hk, hne]

theorem mem_keys_bumpCount {c k : String} {l : List (String × Nat)} :
    c ∈ (bumpCount k l).map (fun e => e.1) ↔ c = k ∨ c ∈ l.map (fun e => e.1) := by
  rw [bumpCount_keys]
  split
  case isTrue h => exact ⟨Or.inr, fun hc => hc.elim (fun hh => hh ▸ h) id⟩
  case isFalse h => simp [List.mem_append, or_comm]

theorem bumpContinent_sum (code name : String) (l : List (String × String × Nat)) :
    ((bumpContinent code name l).map (fun e => e.2.2)).sum
      = ((l.map (fun e => e.2.2)).sum) + 1 := by
  induction l with
  | nil => simp [bumpContinent]
  | cons e l ih =>
    obtain ⟨c, entry⟩ := e
    simp only [bumpContinent]
    split
    · simp [List.map_cons]; omega
    · simp only [List.map_cons, List.sum_cons, ih]; omega

theorem bumpContinent_mem {code name : String} {l : List (String × String × Nat)}
    {e : String × String × Nat} (h : e ∈ bumpContinent code name l) :
    e.1 = code ∨ e ∈ l := by
  induction l with
  | nil =>
    simp only [bumpContinent, List.mem_singleton] at h
    subst h; exact Or.inl rfl
  | cons f l ih =>
    obtain ⟨c, entry⟩ := f
    simp only [bumpContinent] at h
    split at h
    case isTrue hc =>
      rcases List.mem_cons.mp h with rfl | h
      · exact Or.inl hc
      · exact Or.inr (List.mem_cons_of_mem _ h)
    case isFalse hc =>
      rcases List.mem_cons.mp h with rfl | h
      · exact Or.inr (List.mem_cons_self _ _)
      · rcases ih h with h' | h'
        · exact Or.inl h'
        · exact Or.inr (List.mem_cons_of_mem _ h')

theorem bumpContinent_keys (code name : String) (l : List (String × String × Nat)) :
    (bumpContinent code name l).map (fun e => e.1)
      = if code ∈ l.map (fun e => e.1) then l.map (fun e => e.1)
        else l.map (fun e => e.1) ++ [code] := by
  induction l with
  | nil => simp [bumpContinent]
  | cons e l ih =>
    obtain ⟨c, entry⟩ := e
    simp only [bumpContinent]
    split
    case isTrue h =>
      subst h
      simp [List.map_cons]
    case isFalse h =>
      have hne : code ≠ c := fun hh => h hh.symm
      simp only [List.map_cons, ih, List.mem_cons]
      by_cases hk : code ∈ l.map (fun e => e.1)
      · simp [hk, hne]
      · simp [hk, hne]

theorem mem_keys_bumpContinent {c code name : String} {l : List (String × String × Nat)} :
    c ∈ (bumpContinent code name l).map (fun e => e.1)
      ↔ c = code ∨ c ∈ l.map (fun e => e.1) := by
  rw [bumpContinent_keys]
  split
  case isTrue h => exact ⟨Or.inr, fun hc => hc.elim (fun hh => hh ▸ h) id⟩
  case isFalse h => simp [List.mem_append, or_comm]

theorem continentsTally_go_sum (rs : List Resolver) (acc : List (String × String × Nat)) :
    ((rs.foldl
        (fun acc r =>
          if r.continent_code ≠ "" then bumpContinent r.continent_code r.continent acc else acc)
        acc).map (fun e => e.2.2)).sum
      = ((acc.map (fun e => e.2.2)).sum)
        + (rs.filter (fun r => r.continent_code ≠ "")).length := by
  induction rs generalizing acc with
  | nil => simp
  | cons r rs ih =>
    simp only [List.foldl_cons, List.filter_cons]
    by_cases h : r.continent_code = ""
    · rw [if_neg (fun hh => hh h), ih, if_neg (by simp [h])]
    · rw [if_pos h, ih, bumpContinent_sum, if_pos (by simp [h])]
      simp only [List.length_cons]
      omega

theorem continentsTally_sum (resolvers : List Resolver) :
    ((continentsTally resolvers).map (fun e => e.2.2)).sum
      = (resolvers.filter (fun r => r.continent_code ≠ "")).length := by
  unfold continentsTally
  simpa using continentsTally_go_sum resolvers []

theorem continentsTally_go_keys (rs : List Resolver) (acc : List (String × String × Nat))
    (c : String) :
    (c ∈ (rs.foldl
        (fun acc r =>
          if r.continent_code ≠ "" then bumpContinent r.continent_code r.continent acc else acc)
        acc).map (fun e => e.1))
      ↔ c ∈ acc.map (fun e => e.1) ∨ (c ≠ "" ∧ ∃ r ∈ rs, r.continent_code = c) := by
  induction rs generalizing acc with
  | nil => simp
  | cons r rs ih =>
    simp only [List.foldl_cons]
    by_cases h : r.continent_code = ""
    · rw [if_neg (fun hh => hh h), ih]
      simp only [List.mem_cons]
      constructor
      · rintro (hacc | ⟨hc, x, hx, hxc⟩)
        · exact Or.inl hacc
        · exact Or.inr ⟨hc, x, Or.inr hx, hxc⟩
      · rintro (hacc | ⟨hc, x, hx | hx, hxc⟩)
        · exact Or.inl hacc
        · subst hx; rw [h] at hxc; exact absurd hxc.symm hc
        · exact Or.inr ⟨hc, x, hx, hxc⟩
    · rw [if_pos h, ih, mem_keys_bumpContinent]
      simp only [List.mem_cons]
      constructor
      · rintro ((hc | hacc) | ⟨hc, x, hx, hxc⟩)
        · exact Or.inr ⟨hc ▸ h, r, Or.inl rfl, hc.symm⟩
        · exact Or.inl hacc
        · exact Or.inr ⟨hc, x, Or.inr hx, hxc⟩
      · rintro (hacc | ⟨hc, x, hx | hx, hxc⟩)
        · exact Or.inl (Or.inr hacc)
        · exact Or.inl (Or.inl (hx ▸ hxc).symm)
        · exact Or.inr ⟨hc, x, hx, hxc⟩

theorem mem_keys_continentsTally {resolvers : List Resolver} {c : String} :
    c ∈ (continentsTally resolvers).map (fun e => e.1)
      ↔ c ≠ "" ∧ ∃ r ∈ resolvers, r.continent_code = c := by
  unfold continentsTally
  simpa using continentsTally_go_keys resolvers [] c

theorem countriesTally_go_keys (rs : List Resolver) (acc : List (String × Nat)) (c : String) :
    (c ∈ (rs.foldl
        (fun acc r => if r.country_code ≠ "" then bumpCount r.country_code acc else acc)
        acc).map (fun e => e.1))
      ↔ c ∈ acc.map (fun e => e.1) ∨ (c ≠ "" ∧ ∃ r ∈ rs, r.country_code = c) := by
  induction rs generalizing acc with
  | nil => simp
  | cons r rs ih =>
    simp only [List.foldl_cons]
    by_cases h : r.country_code = ""
    · rw [if_neg (fun hh => hh h), ih]
      simp only [List.mem_cons]
      constructor
      · rintro (hacc | ⟨hc, x, hx, hxc⟩)
        · exact Or.inl hacc
        · exact Or.inr ⟨hc, x, Or.inr hx, hxc⟩
      · rintro (hacc | ⟨hc, x, hx | hx, hxc⟩)
        · exact Or.inl hacc
        · subst hx; rw [h] at hxc; exact absurd hxc.symm hc
        · exact Or.inr ⟨hc, x, hx, hxc⟩
    · rw [if_pos h, ih, mem_keys_bumpCount]
      simp only [List.mem_cons]
      constructor
      · rintro ((hc | hacc) | ⟨hc, x, hx, hxc⟩)
        · exact Or.inr ⟨hc ▸ h, r, Or.inl rfl, hc.symm⟩
        · exact Or.inl hacc
        · exact Or.inr ⟨hc, x, Or.inr hx, hxc⟩
      · rintro (hacc | ⟨hc, x, hx | hx, hxc⟩)
        · exact Or.inl (Or.inr hacc)
        · exact Or.inl (Or.inl (hx ▸ hxc).symm)
        · exact Or.inr ⟨hc, x, hx, hxc⟩

theorem mem_keys_countriesTally {resolvers : List Resolver} {c : String} :
    c ∈ (countriesTally resolvers).map (fun e => e.1)
      ↔ c ≠ "" ∧ ∃ r ∈ resolvers, r.country_code = c := by
  unfold countriesTally
  simpa using countriesTally_go_keys resolvers [] c

theorem mem_by_country_key {resolvers : List Resolver} {e : String × String × Nat}
    (h : e ∈ top_countries resolvers) :
    e.1 ∈ (countriesTally resolvers).map (fun x => x.1) := by
  rcases List.mem_filterMap.mp h with ⟨ck, hck, heq⟩
  rcases Option.map_eq_some'.mp heq with ⟨r, _, hr⟩
  have hk : ck ∈ countriesTally resolvers := mem_sortLe.mp hck
  have : e.1 = ck.1 := by rw [← hr]
  rw [this]
  exact List.mem_map_of_mem _ hk

/-! ### Claim theorems: aggregator invariants -/

/-- C5: For every resolver collection, the per-continent counts in the
computed statistics sum to the number of records with a non-empty continent
code, which is at most the total server count; the global totals count every
record, while records with an empty continent or country code appear in no
`by_continent` or `by_country` bucket. -/
theorem stats_continent_sum_spec (resolvers : List Resolver) (config : Config)
    (g : FileGenerator) :
    (((FileGenerator._calculate_stats g resolvers config).by_continent.map
        (fun e => e.2.2)).sum
      = (resolvers.filter (fun r => r.continent_code ≠ "")).length)
    ∧ (((FileGenerator._calculate_stats g resolvers config).by_continent.map
        (fun e => e.2.2)).sum
      ≤ (FileGenerator._calculate_stats g resolvers config).totals_servers)
    ∧ (FileGenerator._calculate_stats g resolvers config).totals_servers = resolvers.length
    ∧ (∀ e ∈ (FileGenerator._calculate_stats g resolvers config).by_continent, e.1 ≠ "")
    ∧ (∀ e ∈ (FileGenerator._calculate_stats g resolvers config).by_country, e.1 ≠ "") := by
  have hbc : (FileGenerator._calculate_stats g resolvers config).by_continent
      = sortLe (fun a b => decide (a.1 ≤ b.1)) (continentsTally resolvers) := rfl
  have hby : (FileGenerator._calculate_stats g resolvers config).by_country
      = top_countries resolvers := rfl
  have hts : (FileGenerator._calculate_stats g resolvers config).totals_servers
      = resolvers.length := rfl
  have hsum : ((FileGenerator._calculate_stats g resolvers config).by_continent.map
      (fun e => e.2.2)).sum = (resolvers.filter (fun r => r.continent_code ≠ "")).length := by
    rw [hbc, ((sortLe_perm _ (continentsTally resolvers)).map (fun e => e.2.2)).sum_eq,
      continentsTally_sum]
  refine ⟨hsum, ?_, hts, ?_, ?_⟩
  · rw [hsum, hts]
    exact List.length_filter_le _ _
  · intro e he
    rw [hbc] at he
    have hk : e.1 ∈ (continentsTally resolvers).map (fun x => x.1) :=
      List.mem_map_of_mem _ (mem_sortLe.mp he)
    exact (mem_keys_continentsTally.mp hk).1
  · intro e he
    rw [hby] at he
    exact (mem_keys_countriesTally.mp (mem_by_country_key he)).1

/-- C6: In the computed statistics the country ranking is non-increasing in
count and contains every distinct non-empty country code of the collection
(no truncation), while the organization ranking is non-increasing in count
and has at most 20 entries. -/
theorem stats_rankings_spec (resolvers : List Resolver) (config : Config)
    (g : FileGenerator) :
    ((FileGenerator._calculate_stats g resolvers config).by_country.Pairwise
        (fun a b => b.2.2 ≤ a.2.2))
    ∧ (∀ c : String,
        (∃ e ∈ (FileGenerator._calculate_stats g resolvers config).by_country, e.1 = c)
          ↔ c ≠ "" ∧ ∃ r ∈ resolvers, r.country_code = c)
    ∧ ((FileGenerator._calculate_stats g resolvers config).top_organizations.Pairwise
        (fun a b => b.2 ≤ a.2))
    ∧ (FileGenerator._calculate_stats g resolvers config).top_organizations.length ≤ 20 := by
  have hby : (FileGenerator._calculate_stats g resolvers config).by_country
      = top_countries resolvers := rfl
  have hto : (FileGenerator._calculate_stats g resolvers config).top_organizations
      = top_orgs resolvers := rfl
  have htot : ∀ a b : String × Nat,
      (decide (b.2 ≤ a.2)) = true ∨ (decide (a.2 ≤ b.2)) = true := by
    intro a b
    rcases Nat.le_total b.2 a.2 with h | h
    · exact Or.inl (decide_eq_true h)
    · exact Or.inr (decide_eq_true h)
  have htrans : ∀ a b c : String × Nat,
      (decide (b.2 ≤ a.2)) = true → (decide (c.2 ≤ b.2)) = true →
        (decide (c.2 ≤ a.2)) = true := by
    intro a b c hab hbc
    exact decide_eq_true (le_trans (of_decide_eq_true hbc) (of_decide_eq_true hab))
  have hsorted : (sorted_countries resolvers).Pairwise
      (fun a b => (decide (b.2 ≤ a.2)) = true) :=
    pairwise_sortLe htot htrans (countriesTally resolvers)
  refine ⟨?_, ?_, ?_, ?_⟩
  · rw [hby]
    unfold top_countries
    refine pairwise_filterMap_of _ ?_ hsorted
    intro a a' b b' hR ha ha'
    rcases Option.map_eq_some'.mp ha with ⟨r, _, hr⟩
    rcases Option.map_eq_some'.mp ha' with ⟨r', _, hr'⟩
    have hb2 : b.2.2 = a.2 := by rw [← hr]
    have hb2' : b'.2.2 = a'.2 := by rw [← hr']
    rw [hb2, hb2']
    exact of_decide_eq_true hR
  · intro c
    rw [hby]
    constructor
    · rintro ⟨e, he, rfl⟩
      exact mem_keys_countriesTally.mp (mem_by_country_key he)
    · rintro ⟨hc, r, hrmem, hrc⟩
      have hkey : c ∈ (countriesTally resolvers).map (fun e => e.1) :=
        mem_keys_countriesTally.mpr ⟨hc, r, hrmem, hrc⟩
      rcases List.mem_map.mp hkey with ⟨ck, hck, hcke⟩
      have hsck : ck ∈ sorted_countries resolvers := mem_sortLe.mpr hck
      have hfind : (resolvers.find? (fun x => x.country_code == ck.1)).isSome := by
        rw [List.find?_isSome]
        refine ⟨r, hrmem, ?_⟩
        rw [hcke]
        exact beq_iff_eq.mpr hrc
      rcases Option.isSome_iff_exists.mp hfind with ⟨r₀, hr₀⟩
      refine ⟨(ck.1, r₀.country, ck.2), ?_, hcke⟩
      unfold top_countries
      exact List.mem_filterMap.mpr ⟨ck, hsck, by rw [hr₀]; rfl⟩
  · rw [hto]
    unfold top_orgs
    exact ((pairwise_sortLe htot htrans (organizationsTally resolvers)).sublist
      (List.take_sublist _ _)).imp (fun h => of_decide_eq_true h)
  · rw [hto]
    unfold top_orgs
    rw [List.length_take]
    exact Nat.min_le_left _ _

/-- C7: A plain-text artifact's IP lines are the deduplicated,
lexicographically sorted IPs of the selected resolvers — each distinct IP
exactly once, in order — while the JSON and CSV artifacts keep one full
entry per input record (so duplicate-IP records collapse only in the
plain-text lists). -/
theorem txt_dedup_sorted_spec (resolvers : List Resolver) :
    (txt_ips resolvers).Pairwise (fun a b => a ≤ b)
    ∧ (txt_ips resolvers).Nodup
    ∧ (∀ s : String, s ∈ txt_ips resolvers ↔ ∃ r ∈ resolvers, r.ip = s)
    ∧ (csvRows resolvers).length = resolvers.length
    ∧ (resolvers.map Resolver.to_json_dict).length = resolvers.length := by
  have htot : ∀ a b : String, (decide (a ≤ b)) = true ∨ (decide (b ≤ a)) = true := by
    intro a b
    rcases le_total a b with h | h
    · exact Or.inl (decide_eq_true h)
    · exact Or.inr (decide_eq_true h)
  have htrans : ∀ a b c : String, (decide (a ≤ b)) = true → (decide (b ≤ c)) = true →
      (decide (a ≤ c)) = true := by
    intro a b c h1 h2
    exact decide_eq_true (le_trans (of_decide_eq_true h1) (of_decide_eq_true h2))
  have hperm := sortLe_perm (fun a b : String => decide (a ≤ b))
    ((resolvers.map (fun r => r.ip)).dedup)
  refine ⟨?_, ?_, ?_, ?_, ?_⟩
  · unfold txt_ips
    exact (pairwise_sortLe htot htrans _).imp (fun h => of_decide_eq_true h)
  · unfold txt_ips
    exact hperm.nodup_iff.mpr (List.nodup_dedup _)
  · intro s
    unfold txt_ips
    rw [mem_sortLe, List.mem_dedup, List.mem_map]
  · simp [csvRows]
  · simp

/-- C8: Given the same resolver collection, configuration and captured
timestamp, two generator runs produce identical artifact content for every
artifact: the output depends on nothing else (in particular not on the
output base path, which only selects the on-disk location). -/
theorem generate_all_deterministic (g g' : FileGenerator) (resolvers : List Resolver)
    (config : Config) (h : g.timestamp = g'.timestamp) :
    FileGenerator.generate_all g resolvers config
      = FileGenerator.generate_all g' resolvers config := by
  obtain ⟨bp, ts⟩ := g
  obtain ⟨bp', ts'⟩ := g'
  change ts = ts' at h
  subst h
  rfl

/-- Witness for C8 at a concrete input: two generators differing only in
base path (same timestamp) produce the same artifacts. -/
theorem generate_all_deterministic_witness :
    FileGenerator.generate_all ⟨"out-a", "2024-01-01T00:00:00Z"⟩ [] { api_endpoint := "e" }
      = FileGenerator.generate_all ⟨"out-b", "2024-01-01T00:00:00Z"⟩ [] { api_endpoint := "e" } :=
  generate_all_deterministic _ _ [] _ rfl

/-- C9: A successful fetch that accumulated zero online resolvers makes the
pipeline exit with a non-zero code and produce no artifacts at all. -/
theorem empty_result_aborts (g : FileGenerator) (config : Config) :
    (mainRun (Except.ok []) g config).1 ≠ 0
    ∧ (mainRun (Except.ok []) g config).2 = [] := by
  constructor <;> simp [mainRun]

/-! ### Normalizer lemmas and claims -/

theorem _to_float_eq_default {v : JValue} (hp : pyFloat v = none) (d : PyFloat) :
    _to_float (some v) d = d := by
  cases v <;> simp_all [_to_float, pyFloat]

theorem _to_float_eq_of_parse {v : JValue} {f : PyFloat} (hp : pyFloat v = some f)
    (d : PyFloat) : _to_float (some v) d = f := by
  cases v <;> simp_all [_to_float, pyFloat]

theorem _to_float_spec (o : Option JValue) :
    (o = none → _to_float o = PyFloat.finite 0)
    ∧ (∀ v, o = some v → pyFloat v = none → _to_float o = PyFloat.finite 0)
    ∧ (∀ v f, o = some v → pyFloat v = some f → _to_float o = f) := by
  refine ⟨?_, ?_, ?_⟩
  · intro h
    rw [h]
    rfl
  · intro v hv hp
    rw [hv]
    exact _to_float_eq_default hp _
  · intro v f hv hp
    rw [hv]
    exact _to_float_eq_of_parse hp _

/-- C3 as stated is false: Python's `float` parses "nan" and "inf", and
`_to_float` catches nothing for them, so normalization stores a NaN
(respectively infinite) uptime rather than the claimed 0.0 — the "never a
null or NaN-propagating value" guarantee fails; underscore-grouped
literals such as "1_000" likewise parse to their numeric value instead of
falling back to the default. -/
theorem uptime_special_counterexample :
    (RawResolver.from_api_response
        [("dns_server_uptime_24h", JValue.str "nan")]).uptime_24h = PyFloat.nan
    ∧ (RawResolver.from_api_response
        [("dns_server_uptime_24h", JValue.str "nan")]).uptime_24h ≠ PyFloat.finite 0
    ∧ (RawResolver.from_api_response
        [("dns_server_uptime_24h", JValue.str "inf")]).uptime_24h = PyFloat.inf
    ∧ (RawResolver.from_api_response
        [("dns_server_uptime_24h", JValue.str "1_000")]).uptime_24h
      = PyFloat.finite ((1000 : Nat) : ℚ) := by
  refine ⟨rfl, by decide, rfl, rfl⟩

/-- C3 (amended): Normalization never fails on any raw record (it is a
total function): every missing field receives its type-appropriate
default — empty string, `false`, the integer 4 — and a missing or
unparseable uptime value yields exactly 0.0; any uptime value Python's
`float` does parse — finite literals and the specials "inf"/"nan" — is
stored unchanged, so a NaN or infinite uptime supplied by the API
propagates into the record. -/
theorem from_api_response_defaults (data : RawRecord) :
    ((data.get "dns_server_ip_address" = none →
        (RawResolver.from_api_response data).ip = JValue.str "")
      ∧ (data.get "dns_server_ip_address_version" = none →
        (RawResolver.from_api_response data).version = JValue.num 4)
      ∧ (data.get "country_id" = none →
        (RawResolver.from_api_response data).country_code = JValue.str "")
      ∧ (data.get "country_name" = none →
        (RawResolver.from_api_response data).country = JValue.str "")
      ∧ (data.get "continent_id" = none →
        (RawResolver.from_api_response data).continent_code = JValue.str "")
      ∧ (data.get "continent_name" = none →
        (RawResolver.from_api_response data).continent = JValue.str "")
      ∧ (data.get "dns_server_organization" = none →
        (RawResolver.from_api_response data).organization = JValue.str "")
      ∧ (data.get "dns_server_domain" = none →
        (RawResolver.from_api_response data).domain = JValue.str ""))
    ∧ ((data.get "dns_server_is_trusted" = none →
        (RawResolver.from_api_response data).trusted = JValue.bool false)
      ∧ (data.get "dns_server_is_anycast" = none →
        (RawResolver.from_api_response data).anycast = JValue.bool false)
      ∧ (data.get "dns_server_dnssec_aware" = none →
        (RawResolver.from_api_response data).dnssec_aware = JValue.bool false)
      ∧ (data.get "dns_server_dnssec_validating" = none →
        (RawResolver.from_api_response data).dnssec_validating = JValue.bool false)
      ∧ (data.get "dns_server_is_ad_blocking" = none →
        (RawResolver.from_api_response data).ad_blocking = JValue.bool false)
      ∧ (data.get "dns_server_is_malware_blocking" = none →
        (RawResolver.from_api_response data).malware_blocking = JValue.bool false)
      ∧ (data.get "dns_server_is_porn_blocking" = none →
        (RawResolver.from_api_response data).adult_blocking = JValue.bool false))
    ∧ ((data.get "dns_server_uptime_24h" = none →
        (RawResolver.from_api_response data).uptime_24h = PyFloat.finite 0)
      ∧ (∀ v, data.get "dns_server_uptime_24h" = some v → pyFloat v = none →
        (RawResolver.from_api_response data).uptime_24h = PyFloat.finite 0)
      ∧ (∀ v f, data.get "dns_server_uptime_24h" = some v → pyFloat v = some f →
        (RawResolver.from_api_response data).uptime_24h = f))
    ∧ ((data.get "dns_server_uptime_30d" = none →
        (RawResolver.from_api_response data).uptime_30d = PyFloat.finite 0)
      ∧ (∀ v, data.get "dns_server_uptime_30d" = some v → pyFloat v = none →
        (RawResolver.from_api_response data).uptime_30d = PyFloat.finite 0)
      ∧ (∀ v f, data.get "dns_server_uptime_30d" = some v → pyFloat v = some f →
        (RawResolver.from_api_response data).uptime_30d = f))
    ∧ ((data.get "dns_server_uptime_90d" = none →
        (RawResolver.from_api_response data).uptime_90d = PyFloat.finite 0)
      ∧ (∀ v, data.get "dns_server_uptime_90d" = some v → pyFloat v = none →
        (RawResolver.from_api_response data).uptime_90d = PyFloat.finite 0)
      ∧ (∀ v f, data.get "dns_server_uptime_90d" = some v → pyFloat v = some f →
        (RawResolver.from_api_response data).uptime_90d = f))
    ∧ ((data.get "dns_server_uptime_1y" = none →
        (RawResolver.from_api_response data).uptime_1y = PyFloat.finite 0)
      ∧ (∀ v, data.get "dns_server_uptime_1y" = some v → pyFloat v = none →
        (RawResolver.from_api_response data).uptime_1y = PyFloat.finite 0)
      ∧ (∀ v f, data.get "dns_server_uptime_1y" = some v → pyFloat v = some f →
        (RawResolver.from_api_response data).uptime_1y = f)) := by
  refine ⟨⟨?_, ?_, ?_, ?_, ?_, ?_, ?_, ?_⟩, ⟨?_, ?_, ?_, ?_, ?_, ?_, ?_⟩, ?_, ?_, ?_, ?_⟩ <;>
    first
    | (intro h
       simp [RawResolver.from_api_response, RawRecord.getD, h, _to_float])
    | exact _to_float_spec (data.get "dns_server_uptime_24h")
    | exact _to_float_spec (data.get "dns_server_uptime_30d")
    | exact _to_float_spec (data.get "dns_server_uptime_90d")
    | exact _to_float_spec (data.get "dns_server_uptime_1y")

/-- Witness for C3 (amended) at concrete records: with only an unparseable
uptime string present, the IP falls back to the empty string and the
uptime to 0.0, while a parseable "nan" uptime is stored as NaN. -/
theorem from_api_response_defaults_witness :
    (RawResolver.from_api_response [("dns_server_uptime_24h", JValue.str "n/a")]).ip
        = JValue.str ""
    ∧ (RawResolver.from_api_response [("dns_server_uptime_24h", JValue.str "n/a")]).uptime_24h
        = PyFloat.finite 0
    ∧ (RawResolver.from_api_response [("dns_server_uptime_24h", JValue.str "nan")]).uptime_24h
        = PyFloat.nan :=
  ⟨(from_api_response_defaults _).1.1 rfl,
    (from_api_response_defaults _).2.2.1.2.1 (JValue.str "n/a") rfl rfl,
    (from_api_response_defaults _).2.2.1.2.2 (JValue.str "nan") PyFloat.nan rfl rfl⟩

/-- C4 as stated is false: the normalizer performs no validation of the
version field, so a raw record carrying version 5 produces a resolver
whose version is neither 4 nor 6. -/
theorem version_counterexample :
    ¬(((RawResolver.from_api_response
          [("dns_server_ip_address_version", JValue.num 5)]).version = JValue.num 4)
      ∨ ((RawResolver.from_api_response
          [("dns_server_ip_address_version", JValue.num 5)]).version = JValue.num 6)) := by
  have h : (RawResolver.from_api_response
      [("dns_server_ip_address_version", JValue.num 5)]).version = JValue.num 5 := rfl
  rw [h]
  rintro (h' | h') <;> (injection h' with hq) <;> norm_num at hq

/-- C4 (amended): the version field is the raw API value when present and
the integer 4 when absent; in particular it lies in {4, 6} whenever the
record omits the field or supplies 4 or 6 — the code never coerces other
supplied values into that set. -/
theorem version_amended (data : RawRecord)
    (h : data.get "dns_server_ip_address_version" = none
      ∨ data.get "dns_server_ip_address_version" = some (JValue.num 4)
      ∨ data.get "dns_server_ip_address_version" = some (JValue.num 6)) :
    (RawResolver.from_api_response data).version = JValue.num 4
    ∨ (RawResolver.from_api_response data).version = JValue.num 6 := by
  have hv : (RawResolver.from_api_response data).version
      = (data.get "dns_server_ip_address_version").getD (JValue.num 4) := rfl
  rcases h with h | h | h <;> rw [hv, h] <;> simp

/-- Witness for C4 (amended): a record without the version field gets
version 4. -/
theorem version_amended_witness :
    (RawResolver.from_api_response []).version = JValue.num 4
    ∨ (RawResolver.from_api_response []).version = JValue.num 6 :=
  version_amended [] (Or.inl rfl)

/-! ### Retry-loop lemmas and claim C1 -/

theorem _fetch_page_loop_success (outcomes : Nat → Option JValue)
    (max_retries retry_delay : Nat) (page : JValue) :
    ∀ (k attempt slept : Nat), attempt + k < max_retries →
      outcomes (attempt + k) = some page →
      (∀ i, attempt ≤ i → i < attempt + k → outcomes i = none) →
      _fetch_page_loop outcomes max_retries retry_delay attempt slept
        = some (page, slept + k * retry_delay) := by
  intro k
  induction k with
  | zero =>
    intro attempt slept hlt hout _
    simp only [Nat.add_zero] at hlt hout
    unfold _fetch_page_loop
    rw [dif_pos hlt]
    simp only [hout]
    simp
  | succ k ih =>
    intro attempt slept hlt hout hnone
    have hfirst : outcomes attempt = none := hnone attempt le_rfl (by omega)
    unfold _fetch_page_loop
    rw [dif_pos (by omega)]
    simp only [hfirst]
    rw [if_pos (by omega)]
    have harr : attempt + 1 + k = attempt + (k + 1) := by omega
    have h := ih (attempt + 1) (slept + retry_delay) (by omega) (by rw [harr]; exact hout)
      (fun i h1 h2 => hnone i (by omega) (by omega))
    rw [h, Nat.succ_mul]
    have : slept + retry_delay + k * retry_delay = slept + (k * retry_delay + retry_delay) := by
      omega
    rw [this]

theorem _fetch_page_loop_fail (outcomes : Nat → Option JValue)
    (max_retries retry_delay : Nat)
    (hall : ∀ i, i < max_retries → outcomes i = none) :
    ∀ (n attempt slept : Nat), max_retries - attempt ≤ n →
      _fetch_page_loop outcomes max_retries retry_delay attempt slept = none := by
  intro n
  induction n with
  | zero =>
    intro attempt slept h
    unfold _fetch_page_loop
    rw [dif_neg (by omega)]
  | succ n ih =>
    intro attempt slept h
    unfold _fetch_page_loop
    by_cases hlt : attempt < max_retries
    · rw [dif_pos hlt]
      simp only [hall attempt hlt]
      by_cases h2 : attempt < max_retries - 1
      · rw [if_pos h2]
        exact ih (attempt + 1) (slept + retry_delay) (by omega)
      · rw [if_neg h2]
    · rw [dif_neg hlt]

/-- C1: The per-page fetch makes up to `max_retries` attempts (default 3),
sleeping the fixed `retry_delay` (default 30) between consecutive failed
attempts: if the first success is attempt `k` (0-based) within the budget,
the page is returned with a total elapsed retry delay of
`k * retry_delay` — e.g. two failures then a success sleeps twice — and the
fetch fails (the exception escapes) only when all `max_retries` attempts
fail. -/
theorem fetch_page_retry_spec :
    (∀ (outcomes : Nat → Option JValue) (config : Config) (k : Nat) (page : JValue),
        k < config.max_retries → outcomes k = some page →
        (∀ i, i < k → outcomes i = none) →
        _fetch_page outcomes config = some (page, k * config.retry_delay))
    ∧ (∀ (outcomes : Nat → Option JValue) (config : Config),
        (∀ i, i < config.max_retries → outcomes i = none) →
        _fetch_page outcomes config = none)
    ∧ (∀ e : String, ({ api_endpoint := e } : Config).max_retries = 3
        ∧ ({ api_endpoint := e } : Config).retry_delay = 30) := by
  refine ⟨?_, ?_, ?_⟩
  · intro outcomes config k page hk hout hnone
    have h := _fetch_page_loop_success outcomes config.max_retries config.retry_delay page
      k 0 0 (by omega) (by simpa using hout) (fun i h1 h2 => hnone i (by omega))
    simpa [_fetch_page] using h
  · intro outcomes config hall
    exact _fetch_page_loop_fail outcomes config.max_retries config.retry_delay hall
      config.max_retries 0 0 (by omega)
  · intro e
    exact ⟨rfl, rfl⟩

/-- Witness for C1: with the default configuration, two failures followed
by a success return the page after 2 × 30 time units of retry sleep, and
three failures make the fetch fail. -/
theorem fetch_page_retry_spec_witness :
    _fetch_page (fun i => if i == 2 then some (JValue.num 7) else none)
        { api_endpoint := "e" } = some (JValue.num 7, 2 * 30)
    ∧ _fetch_page (fun _ => none) { api_endpoint := "e" } = none := by
  constructor
  · exact fetch_page_retry_spec.1 (fun i => if i == 2 then some (JValue.num 7) else none)
      { api_endpoint := "e" } 2 (JValue.num 7) (by decide) rfl
      (by intro i hi; interval_cases i <;> rfl)
  · exact fetch_page_retry_spec.2.1 (fun _ => none) { api_endpoint := "e" }
      (fun i _ => rfl)

/-! ### Pagination lemmas and claim C2 -/

theorem fetch_all_servers_loop_spec (api : Nat → List RawRecord) (per_page : Nat) :
    ∀ (k start fuel : Nat),
      (∀ p, start ≤ p → p < start + k → per_page ≤ (api p).length) →
      (api (start + k)).length < per_page →
      k < fuel →
      fetch_all_servers_loop api per_page fuel start
        = some ((((List.range' start (k + 1)).map (fun p => keptServers (api p))).flatten),
            List.range' start (k + 1)) := by
  intro k
  induction k with
  | zero =>
    intro start fuel _ hshort hfuel
    obtain ⟨f, rfl⟩ : ∃ f, fuel = f + 1 := ⟨fuel - 1, by omega⟩
    simp only [Nat.add_zero] at hshort
    simp only [fetch_all_servers_loop]
    rw [if_pos hshort]
    simp
  | succ k ih =>
    intro start fuel hfull hshort hfuel
    obtain ⟨f, rfl⟩ : ∃ f, fuel = f + 1 := ⟨fuel - 1, by omega⟩
    simp only [fetch_all_servers_loop]
    rw [if_neg (by
      have := hfull start le_rfl (by omega)
      omega)]
    have harr : start + 1 + k = start + (k + 1) := by omega
    rw [ih (start + 1) f (fun p h1 h2 => hfull p (by omega) (by omega))
      (by rw [harr]; exact hshort) (by omega)]
    rw [List.range'_succ start (k + 1) 1]
    simp

theorem keptServers_append (a b : List RawRecord) :
    keptServers (a ++ b) = keptServers a ++ keptServers b := by
  simp [keptServers, List.filter_append]

theorem keptServers_flatten (L : List (List RawRecord)) :
    (L.map keptServers).flatten = keptServers L.flatten := by
  induction L with
  | nil => rfl
  | cons a L ih => simp [List.flatten_cons, keptServers_append, ih]

theorem flatten_chunks {α : Type} (per_page : Nat) :
    ∀ (m : Nat) (l : List α),
      ((List.range m).map (fun i => (l.drop (i * per_page)).take per_page)).flatten
        = l.take (m * per_page) := by
  intro m
  induction m with
  | zero => intro l; simp
  | succ m ih =>
    intro l
    rw [List.range_succ_eq_map]
    simp only [List.map_cons, List.flatten_cons, List.map_map]
    have h1 : (l.drop (0 * per_page)).take per_page = l.take per_page := by simp
    rw [h1]
    have h2 : ((fun i => (l.drop (i * per_page)).take per_page) ∘ (· + 1) : Nat → List α)
        = fun i => ((l.drop per_page).drop (i * per_page)).take per_page := by
      funext i
      show (l.drop ((i + 1) * per_page)).take per_page = _
      rw [List.drop_drop]
      have : (i + 1) * per_page = per_page + i * per_page := by ring
      rw [this]
    rw [h2, ih (l.drop per_page), ← List.take_add]
    have : per_page + m * per_page = (m + 1) * per_page := by ring
    rw [this]

theorem pagedApi_full {all : List RawRecord} {per_page m : Nat}
    (hlen : all.length = m * per_page) {p : Nat} (hp1 : 1 ≤ p) (hpm : p ≤ m) :
    (pagedApi all per_page p).length = per_page := by
  unfold pagedApi
  rw [List.length_take, List.length_drop, hlen]
  have h2 : per_page ≤ m * per_page - (p - 1) * per_page := by
    rw [← Nat.sub_mul]
    exact Nat.le_mul_of_pos_left per_page (by omega)
  omega

theorem pagedApi_past {all : List RawRecord} {per_page m : Nat}
    (hlen : all.length = m * per_page) : pagedApi all per_page (m + 1) = [] := by
  unfold pagedApi
  rw [List.drop_eq_nil_of_le (by rw [hlen]; simp), List.take_nil]

/-- C2: Pagination starts at page 1 and stops exactly after the first page
whose raw item count is strictly below the page size (first conjunct, for
an arbitrary API); when the API's total record count is an exact multiple
of the page size, one extra request is issued whose empty result
terminates the loop while contributing no records — the accumulated
result is exactly the normalized online records of the whole dataset
(second conjunct). -/
theorem fetch_pagination_spec :
    (∀ (api : Nat → List RawRecord) (config : Config) (fuel k : Nat),
        (∀ p, 1 ≤ p → p < 1 + k → config.per_page ≤ (api p).length) →
        (api (1 + k)).length < config.per_page →
        k < fuel →
        fetch_all_servers api config fuel
          = some ((((List.range' 1 (k + 1)).map (fun p => keptServers (api p))).flatten),
              List.range' 1 (k + 1)))
    ∧ (∀ (config : Config) (all : List RawRecord) (m fuel : Nat),
        0 < config.per_page →
        all.length = m * config.per_page →
        m < fuel →
        fetch_all_servers (pagedApi all config.per_page) config fuel
          = some (keptServers all, List.range' 1 (m + 1))
        ∧ pagedApi all config.per_page (m + 1) = []) := by
  constructor
  · intro api config fuel k hfull hshort hfuel
    exact fetch_all_servers_loop_spec api config.per_page k 1 fuel hfull hshort hfuel
  · intro config all m fuel hpp hlen hfuel
    refine ⟨?_, pagedApi_past hlen⟩
    have hfull : ∀ p, 1 ≤ p → p < 1 + m →
        config.per_page ≤ (pagedApi all config.per_page p).length := by
      intro p h1 h2
      rw [pagedApi_full hlen h1 (by omega)]
    have hshort : (pagedApi all config.per_page (1 + m)).length < config.per_page := by
      rw [Nat.add_comm 1 m, pagedApi_past hlen]
      simpa using hpp
    unfold fetch_all_servers
    rw [fetch_all_servers_loop_spec (pagedApi all config.per_page) config.per_page m 1 fuel
      hfull hshort hfuel]
    have hres : (((List.range' 1 (m + 1)).map
          (fun p => keptServers (pagedApi all config.per_page p))).flatten)
        = keptServers all := by
      have hmm : (List.range' 1 (m + 1)).map (fun p => pagedApi all config.per_page p)
          = (List.range (m + 1)).map
              (fun i => (all.drop (i * config.per_page)).take config.per_page) := by
        rw [List.range'_eq_map_range, List.map_map]
        refine List.map_congr_left ?_
        intro i _
        show pagedApi all config.per_page (1 + i) = _
        unfold pagedApi
        have : 1 + i - 1 = i := by omega
        rw [this]
      have step1 : (((List.range' 1 (m + 1)).map
            (fun p => keptServers (pagedApi all config.per_page p))).flatten)
          = keptServers (((List.range' 1 (m + 1)).map
              (fun p => pagedApi all config.per_page p)).flatten) := by
        rw [← keptServers_flatten, List.map_map]
        rfl
      rw [step1, hmm, flatten_chunks, List.take_of_length_le]
      rw [hlen]
      exact Nat.mul_le_mul_right config.per_page (by omega)
    rw [hres]

/-- Witness for C2: four records served two per page — an exactly full
dataset — makes the loop request pages 1, 2 and 3, the last one empty,
and accumulate exactly the online records of the whole dataset. -/
theorem fetch_pagination_spec_witness :
    fetch_all_servers
        (pagedApi [[("dns_server_is_online", JValue.bool true)], [],
          [("dns_server_is_online", JValue.bool true)], []] 2)
        { api_endpoint := "e", per_page := 2 } 5
      = some (keptServers [[("dns_server_is_online", JValue.bool true)], [],
          [("dns_server_is_online", JValue.bool true)], []], List.range' 1 3)
    ∧ pagedApi [[("dns_server_is_online", JValue.bool true)], [],
        [("dns_server_is_online", JValue.bool true)], []] 2 3 = [] :=
  fetch_pagination_spec.2 { api_endpoint := "e", per_page := 2 }
    [[("dns_server_is_online", JValue.bool true)], [],
      [("dns_server_is_online", JValue.bool true)], []] 2 5
    (by decide) (by decide) (by decide)

/-! ### Name-selection lemmas and claim C10 -/

theorem nodup_append_singleton {α : Type} {l : List α} {a : α} (h : l.Nodup) (ha : a ∉ l) :
    (l ++ [a]).Nodup := by
  rw [List.nodup_append]
  refine ⟨h, List.nodup_singleton a, ?_⟩
  intro x hx hxa
  rw [List.mem_singleton] at hxa
  exact ha (hxa ▸ hx)

theorem bumpContinent_keys_nodup {code name : String} {l : List (String × String × Nat)}
    (h : (l.map (fun e => e.1)).Nodup) :
    ((bumpContinent code name l).map (fun e => e.1)).Nodup := by
  rw [bumpContinent_keys]
  split
  · exact h
  case isFalse hk => exact nodup_append_singleton h hk

theorem bumpContinent_mem_ne {code name : String} {l : List (String × String × Nat)}
    {e : String × String × Nat} (he : e ∈ bumpContinent code name l) (hne : e.1 ≠ code) :
    e ∈ l := by
  induction l with
  | nil =>
    simp only [bumpContinent, List.mem_singleton] at he
    exact absurd (by rw [he]) hne
  | cons f l ih =>
    obtain ⟨c, entry⟩ := f
    simp only [bumpContinent] at he
    split at he
    case isTrue hc =>
      rcases List.mem_cons.mp he with rfl | h
      · exact absurd hc hne
      · exact List.mem_cons_of_mem _ h
    case isFalse hc =>
      rcases List.mem_cons.mp he with rfl | h
      · exact List.mem_cons_self _ _
      · exact List.mem_cons_of_mem _ (ih h)

theorem bumpContinent_name_of_key {code name : String} {l : List (String × String × Nat)}
    (hnodup : (l.map (fun e => e.1)).Nodup) {e : String × String × Nat}
    (he : e ∈ bumpContinent code name l) (hk : e.1 = code) : e.2.1 = name := by
  induction l with
  | nil =>
    simp only [bumpContinent, List.mem_singleton] at he
    rw [he]
  | cons f l ih =>
    obtain ⟨c, entry⟩ := f
    rw [List.map_cons, List.nodup_cons] at hnodup
    obtain ⟨hcnot, hnd⟩ := hnodup
    simp only [bumpContinent] at he
    split at he
    case isTrue hc =>
      rcases List.mem_cons.mp he with rfl | h
      · rfl
      · have hmem : e.1 ∈ l.map (fun e => e.1) := List.mem_map_of_mem _ h
        rw [hk, ← hc] at hmem
        exact absurd hmem hcnot
    case isFalse hc =>
      rcases List.mem_cons.mp he with rfl | h
      · exact absurd hk hc
      · exact ih hnd h

theorem continentsTally_go_nodup :
    ∀ (rs : List Resolver) (acc : List (String × String × Nat)),
      ((acc.map (fun e => e.1)).Nodup) →
      (((rs.foldl
          (fun acc r =>
            if r.continent_code ≠ "" then bumpContinent r.continent_code r.continent acc else acc)
          acc).map (fun e => e.1)).Nodup) := by
  intro rs
  induction rs with
  | nil => intro acc h; exact h
  | cons r rs ih =>
    intro acc h
    simp only [List.foldl_cons]
    by_cases hc : r.continent_code = ""
    · rw [if_neg (fun hh => hh hc)]
      exact ih acc h
    · rw [if_pos hc]
      exact ih _ (bumpContinent_keys_nodup h)

theorem continentsTally_go_name :
    ∀ (rs : List Resolver) (acc : List (String × String × Nat)),
      ((acc.map (fun e => e.1)).Nodup) →
      (∀ e ∈ acc, e.1 ≠ "") →
      ∀ e ∈ rs.foldl
          (fun acc r =>
            if r.continent_code ≠ "" then bumpContinent r.continent_code r.continent acc else acc)
          acc,
        (∃ r, rs.reverse.find? (fun r => r.continent_code == e.1) = some r
            ∧ e.2.1 = r.continent)
        ∨ (rs.reverse.find? (fun r => r.continent_code == e.1) = none ∧ e ∈ acc) := by
  intro rs
  induction rs with
  | nil =>
    intro acc _ _ e he
    exact Or.inr ⟨rfl, he⟩
  | cons r rs ih =>
    intro acc hnodup hkeys e he
    simp only [List.foldl_cons] at he
    rw [List.reverse_cons, List.find?_append]
    by_cases hc : r.continent_code = ""
    · rw [if_neg (fun hh => hh hc)] at he
      rcases ih acc hnodup hkeys e he with ⟨r', hfind, hname⟩ | ⟨hfind, hacc⟩
      · rw [hfind]
        exact Or.inl ⟨r', rfl, hname⟩
      · rw [hfind]
        have hne : e.1 ≠ "" := hkeys e hacc
        have hpr : (r.continent_code == e.1) = false := by
          rw [hc]
          exact beq_false_of_ne (fun hh => hne hh.symm)
        have hfr : List.find? (fun x => x.continent_code == e.1) [r] = none := by
          rw [List.find?_cons_of_neg _ (by simp [hpr])]
          rfl
        rw [hfr]
        exact Or.inr ⟨rfl, hacc⟩
    · rw [if_pos hc] at he
      have hnodup' : ((bumpContinent r.continent_code r.continent acc).map
          (fun e => e.1)).Nodup := bumpContinent_keys_nodup hnodup
      have hkeys' : ∀ e' ∈ bumpContinent r.continent_code r.continent acc, e'.1 ≠ "" := by
        intro e' he'
        rcases bumpContinent_mem he' with h | h
        · rw [h]; exact hc
        · exact hkeys e' h
      rcases ih _ hnodup' hkeys' e he with ⟨r', hfind, hname⟩ | ⟨hfind, hacc'⟩
      · rw [hfind]
        exact Or.inl ⟨r', rfl, hname⟩
      · rw [hfind]
        by_cases hpr : r.continent_code = e.1
        · have hfr : List.find? (fun x => x.continent_code == e.1) [r] = some r :=
            List.find?_cons_of_pos _ (beq_iff_eq.mpr hpr)
          rw [hfr]
          exact Or.inl ⟨r, rfl, bumpContinent_name_of_key hnodup hacc' hpr.symm⟩
        · have hfr : List.find? (fun x => x.continent_code == e.1) [r] = none := by
            rw [List.find?_cons_of_neg _ (by simp [hpr])]
            rfl
          rw [hfr]
          exact Or.inr ⟨rfl, bumpContinent_mem_ne hacc' (fun hh => hpr hh.symm)⟩

theorem by_continent_name (resolvers : List Resolver) {e : String × String × Nat}
    (he : e ∈ continentsTally resolvers) :
    (resolvers.reverse.find? (fun r => r.continent_code == e.1)).map (fun r => r.continent)
      = some e.2.1 := by
  have h := continentsTally_go_name resolvers [] (by simp) (by simp) e
    (by unfold continentsTally at he; exact he)
  rcases h with ⟨r', hfind, hname⟩ | ⟨_, habs⟩
  · rw [hfind, Option.map_some', hname]
  · exact absurd habs (List.not_mem_nil e)

theorem top_countries_name {resolvers : List Resolver} {e : String × String × Nat}
    (he : e ∈ top_countries resolvers) :
    (resolvers.find? (fun r => r.country_code == e.1)).map (fun r => r.country)
      = some e.2.1 := by
  rcases List.mem_filterMap.mp he with ⟨ck, hck, heq⟩
  rcases Option.map_eq_some'.mp heq with ⟨r, hfind, hmk⟩
  have h1 : e.1 = ck.1 := by rw [← hmk]
  have h2 : e.2.1 = r.country := by rw [← hmk]
  rw [h1, h2, hfind, Option.map_some']

theorem addToBucket_keys (k : String) (r : Resolver) (acc : List (String × List Resolver)) :
    (addToBucket k r acc).map (fun e => e.1)
      = if k ∈ acc.map (fun e => e.1) then acc.map (fun e => e.1)
        else acc.map (fun e => e.1) ++ [k] := by
  induction acc with
  | nil => simp [addToBucket]
  | cons f acc ih =>
    obtain ⟨k', g⟩ := f
    simp only [addToBucket]
    split
    case isTrue h =>
      subst h
      simp [List.map_cons]
    case isFalse h =>
      have hne : k ≠ k' := fun hh => h hh.symm
      simp only [List.map_cons, ih, List.mem_cons]
      by_cases hk : k ∈ acc.map (fun e => e.1)
      · simp [hk, hne]
      · simp [hk, hne]

theorem addToBucket_keys_nodup {k : String} {r : Resolver}
    {acc : List (String × List Resolver)} (h : (acc.map (fun e => e.1)).Nodup) :
    ((addToBucket k r acc).map (fun e => e.1)).Nodup := by
  rw [addToBucket_keys]
  split
  · exact h
  case isFalse hk => exact nodup_append_singleton h hk

theorem addToBucket_mem_of {k : String} {r : Resolver} {acc : List (String × List Resolver)}
    (hnodup : (acc.map (fun e => e.1)).Nodup) {c : String} {gr : List Resolver}
    (h : (c, gr) ∈ addToBucket k r acc) :
    (c ≠ k ∧ (c, gr) ∈ acc)
    ∨ (c = k ∧ ∃ gr₀, (c, gr₀) ∈ acc ∧ gr = gr₀ ++ [r])
    ∨ (c = k ∧ (∀ gr₀, (c, gr₀) ∉ acc) ∧ gr = [r]) := by
  induction acc with
  | nil =>
    simp only [addToBucket, List.mem_singleton] at h
    rw [Prod.mk.injEq] at h
    exact Or.inr (Or.inr ⟨h.1, fun gr₀ hg => List.not_mem_nil _ hg, h.2⟩)
  | cons f acc ih =>
    obtain ⟨k', g⟩ := f
    rw [List.map_cons, List.nodup_cons] at hnodup
    obtain ⟨hknot, hnd⟩ := hnodup
    simp only [addToBucket] at h
    split at h
    case isTrue hkk =>
      subst hkk
      rcases List.mem_cons.mp h with he | he
      · rw [Prod.mk.injEq] at he
        refine Or.inr (Or.inl ⟨he.1, g, ?_, he.2⟩)
        rw [he.1]
        exact List.mem_cons_self _ _
      · have hck : c ≠ k' := by
          intro hce
          subst hce
          exact hknot (List.mem_map_of_mem (fun e => e.1) he)
        exact Or.inl ⟨hck, List.mem_cons_of_mem _ he⟩
    case isFalse hkk =>
      rcases List.mem_cons.mp h with he | he
      · rw [Prod.mk.injEq] at he
        obtain ⟨he1, he2⟩ := he
        refine Or.inl ⟨fun hh => hkk (he1 ▸ hh), ?_⟩
        rw [he1, he2]
        exact List.mem_cons_self _ _
      · rcases ih hnd he with ⟨hne, hmem⟩ | ⟨hc, gr₀, hg, hgr⟩ | ⟨hc, hnone, hgr⟩
        · exact Or.inl ⟨hne, List.mem_cons_of_mem _ hmem⟩
        · exact Or.inr (Or.inl ⟨hc, gr₀, List.mem_cons_of_mem _ hg, hgr⟩)
        · refine Or.inr (Or.inr ⟨hc, ?_, hgr⟩)
          intro gr₀ hg
          rcases List.mem_cons.mp hg with hh | hh
          · rw [Prod.mk.injEq] at hh
            exact hkk (hh.1 ▸ hc)
          · exact hnone gr₀ hh

theorem addToBucket_key_exists (k : String) (r : Resolver)
    (acc : List (String × List Resolver)) :
    ∃ gr, (k, gr) ∈ addToBucket k r acc := by
  induction acc with
  | nil => exact ⟨[r], List.mem_singleton.mpr rfl⟩
  | cons f acc ih =>
    obtain ⟨k', g⟩ := f
    simp only [addToBucket]
    split
    case isTrue h =>
      subst h
      exact ⟨g ++ [r], List.mem_cons_self _ _⟩
    case isFalse h =>
      obtain ⟨gr, hg⟩ := ih
      exact ⟨gr, List.mem_cons_of_mem _ hg⟩

theorem addToBucket_mem_of_ne {k : String} {r : Resolver}
    {acc : List (String × List Resolver)} {c : String} {gr : List Resolver}
    (hne : c ≠ k) (h : (c, gr) ∈ acc) : (c, gr) ∈ addToBucket k r acc := by
  induction acc with
  | nil => exact absurd h (List.not_mem_nil _)
  | cons f acc ih =>
    obtain ⟨k', g⟩ := f
    simp only [addToBucket]
    split
    case isTrue hkk =>
      subst hkk
      rcases List.mem_cons.mp h with he | he
      · rw [Prod.mk.injEq] at he
        exact absurd he.1 hne
      · exact List.mem_cons_of_mem _ he
    case isFalse hkk =>
      rcases List.mem_cons.mp h with he | he
      · rw [he]
        exact List.mem_cons_self _ _
      · exact List.mem_cons_of_mem _ (ih he)

theorem buckets_go (keep : Resolver → Bool) (key : Resolver → String) :
    ∀ (rs : List Resolver) (acc : List (String × List Resolver)),
      ((acc.map (fun e => e.1)).Nodup) →
      ∀ c gr,
        (c, gr) ∈ rs.foldl (fun acc r => if keep r then addToBucket (key r) r acc else acc) acc →
        (∃ gr₀, (c, gr₀) ∈ acc ∧ gr = gr₀ ++ rs.filter (fun r => keep r && (key r == c)))
        ∨ ((∀ gr₀, (c, gr₀) ∉ acc)
            ∧ gr = rs.filter (fun r => keep r && (key r == c)) ∧ gr ≠ []) := by
  intro rs
  induction rs with
  | nil =>
    intro acc _ c gr h
    exact Or.inl ⟨gr, h, by simp⟩
  | cons r rs ih =>
    intro acc hnodup c gr h
    simp only [List.foldl_cons] at h
    simp only [List.filter_cons]
    by_cases hk : keep r = true
    · rw [if_pos hk] at h
      rcases ih _ (addToBucket_keys_nodup hnodup) c gr h with
        ⟨gr', hg', hgr⟩ | ⟨hnone, hgr, hne⟩
      · rcases addToBucket_mem_of hnodup hg' with
          ⟨hck, hmem⟩ | ⟨hck, gr₀, hg₀, hgr'⟩ | ⟨hck, hnone₀, hgr'⟩
        · have hpred : (keep r && (key r == c)) = false := by
            simp [hk, beq_false_of_ne (fun hh => hck hh.symm)]
          rw [if_neg (by simp [hpred])]
          exact Or.inl ⟨gr', hmem, hgr⟩
        · have hpred : (keep r && (key r == c)) = true := by simp [hk, hck]
          rw [if_pos hpred]
          refine Or.inl ⟨gr₀, hg₀, ?_⟩
          rw [hgr, hgr']
          simp
        · have hpred : (keep r && (key r == c)) = true := by simp [hk, hck]
          rw [if_pos hpred]
          refine Or.inr ⟨hnone₀, ?_, ?_⟩
          · rw [hgr, hgr']
            simp
          · rw [hgr, hgr']
            simp
      · by_cases hck : c = key r
        · exfalso
          obtain ⟨gr₁, hg₁⟩ := addToBucket_key_exists (key r) r acc
          exact hnone gr₁ (by rw [hck]; exact hg₁)
        · have hpred : (keep r && (key r == c)) = false := by
            simp [hk, beq_false_of_ne (fun hh => hck hh.symm)]
          rw [if_neg (by simp [hpred])]
          refine Or.inr ⟨?_, hgr, hne⟩
          intro gr₀ hg₀
          exact hnone gr₀ (addToBucket_mem_of_ne hck hg₀)
    · rw [if_neg hk] at h
      have hkf : keep r = false := by
        revert hk
        cases keep r <;> simp
      have hpred : (keep r && (key r == c)) = false := by simp [hkf]
      rw [if_neg (by simp [hpred])]
      exact ih acc hnodup c gr h

theorem buckets_eq_filter (keep : Resolver → Bool) (key : Resolver → String)
    (resolvers : List Resolver) {c : String} {gr : List Resolver}
    (h : (c, gr) ∈ buckets keep key resolvers) :
    gr = resolvers.filter (fun r => keep r && (key r == c)) ∧ gr ≠ [] := by
  rcases buckets_go keep key resolvers [] (by simp) c gr
      (by unfold buckets at h; exact h) with ⟨gr₀, hg₀, _⟩ | ⟨_, hgr, hne⟩
  · exact absurd hg₀ (List.not_mem_nil _)
  · exact ⟨hgr, hne⟩

theorem find?_congr_mem {α : Type} {p q : α → Bool} {l : List α}
    (h : ∀ a ∈ l, p a = q a) : l.find? p = l.find? q := by
  induction l with
  | nil => rfl
  | cons a l ih =>
    have ha := h a (List.mem_cons_self a l)
    by_cases hp : p a = true
    · rw [List.find?_cons_of_pos _ hp, List.find?_cons_of_pos _ (ha ▸ hp)]
    · rw [List.find?_cons_of_neg _ hp, List.find?_cons_of_neg _ (ha ▸ hp)]
      exact ih (fun a ha' => h a (List.mem_cons_of_mem _ ha'))

/-- C10: Group display names depend on input order when records with the
same code disagree: the name stored with a continent code in `by_continent`
is the continent name of the LAST record (in input order) carrying that
code, whereas the `by_country` ranking and the per-country JSON groups
(whose metadata reads the group's first record) take display names from
the FIRST record carrying the country code. -/
theorem group_name_order_spec (resolvers : List Resolver) (config : Config)
    (g : FileGenerator) :
    (∀ e ∈ (FileGenerator._calculate_stats g resolvers config).by_continent,
        (resolvers.reverse.find? (fun r => r.continent_code == e.1)).map
          (fun r => r.continent) = some e.2.1)
    ∧ (∀ e ∈ (FileGenerator._calculate_stats g resolvers config).by_country,
        (resolvers.find? (fun r => r.country_code == e.1)).map
          (fun r => r.country) = some e.2.1)
    ∧ (∀ cg ∈ sortLe (fun a b => decide (a.1 ≤ b.1))
          (buckets (fun r => r.country_code != "") (fun r => r.country_code) resolvers),
        cg.2.head? = resolvers.find? (fun r => r.country_code == cg.1)) := by
  have hbc : (FileGenerator._calculate_stats g resolvers config).by_continent
      = sortLe (fun a b => decide (a.1 ≤ b.1)) (continentsTally resolvers) := rfl
  have hby : (FileGenerator._calculate_stats g resolvers config).by_country
      = top_countries resolvers := rfl
  refine ⟨?_, ?_, ?_⟩
  · intro e he
    rw [hbc] at he
    exact by_continent_name resolvers (mem_sortLe.mp he)
  · intro e he
    rw [hby] at he
    exact top_countries_name he
  · intro cg hcg
    obtain ⟨c, gr⟩ := cg
    have hmem : (c, gr) ∈ buckets (fun r => r.country_code != "")
        (fun r => r.country_code) resolvers := mem_sortLe.mp hcg
    obtain ⟨hgr, hne⟩ := buckets_eq_filter _ _ resolvers hmem
    have hc : c ≠ "" := by
      obtain ⟨r₀, hr₀⟩ := List.exists_mem_of_ne_nil gr hne
      rw [hgr] at hr₀
      have := List.of_mem_filter hr₀
      rw [Bool.and_eq_true] at this
      obtain ⟨hkeep, hkey⟩ := this
      have hkey' : r₀.country_code = c := beq_iff_eq.mp hkey
      rw [← hkey']
      intro hh
      rw [hh] at hkeep
      simp at hkeep
    show gr.head? = resolvers.find? (fun r => r.country_code == c)
    rw [hgr, List.filter_head?]
    refine find?_congr_mem ?_
    intro a _
    by_cases hac : a.country_code = c
    · have h1 : (a.country_code == c) = true := beq_iff_eq.mpr hac
      have h2 : (a.country_code != "") = true := by
        rw [hac]
        exact bne_iff_ne.mpr hc
      rw [h1, h2]
      rfl
    · have h1 : (a.country_code == c) = false := beq_false_of_ne hac
      rw [h1, Bool.and_false]

/-- Witness for C10: on the sample data the continent bucket keeps the name
of the last record (Y) while the country ranking and the country bucket's
first record keep the name of the first record (A). -/
theorem group_name_order_spec_witness :
    ((nameOrderSample.reverse.find? (fun r => r.continent_code == "EU")).map
        (fun r => r.continent) = some "Y")
    ∧ ((nameOrderSample.find? (fun r => r.country_code == "FR")).map
        (fun r => r.country) = some "A")
    ∧ nameOrderSample.head? = nameOrderSample.find? (fun r => r.country_code == "FR") := by
  have h := group_name_order_spec nameOrderSample { api_endpoint := "e" } ⟨"", "t"⟩
  refine ⟨h.1 ("EU", "Y", 2) (by decide), h.2.1 ("FR", "A", 2) (by decide),
    h.2.2 ("FR", nameOrderSample) ?_⟩
  have heq : sortLe (fun a b => decide (a.1 ≤ b.1))
      (buckets (fun r => r.country_code != "") (fun r => r.country_code) nameOrderSample)
      = [("FR", nameOrderSample)] := rfl
  rw [heq]
  exact List.mem_singleton.mpr rfl

/-- Witness for C5 at the sample data: the continent sum identity holds and
the bucket ("EU", "Y", 2) indeed carries a non-empty code. -/
theorem stats_continent_sum_spec_witness :
    ("EU" : String) ≠ ""
    ∧ (((FileGenerator._calculate_stats ⟨"", "t"⟩ nameOrderSample
          { api_endpoint := "e" }).by_continent.map (fun e => e.2.2)).sum
        = (nameOrderSample.filter (fun r => r.continent_code ≠ "")).length) := by
  have h := stats_continent_sum_spec nameOrderSample { api_endpoint := "e" } ⟨"", "t"⟩
  exact ⟨h.2.2.2.1 ("EU", "Y", 2) (by decide), h.1⟩

/-- Witness for C6 at the sample data: the code FR appears in the country
ranking, and the organization ranking is within the 20-entry bound. -/
theorem stats_rankings_spec_witness :
    (∃ e ∈ (FileGenerator._calculate_stats ⟨"", "t"⟩ nameOrderSample
        { api_endpoint := "e" }).by_country, e.1 = "FR")
    ∧ (FileGenerator._calculate_stats ⟨"", "t"⟩ nameOrderSample
        { api_endpoint := "e" }).top_organizations.length ≤ 20 := by
  have h := stats_rankings_spec nameOrderSample { api_endpoint := "e" } ⟨"", "t"⟩
  refine ⟨(h.2.1 "FR").mpr ⟨by decide, ?_⟩, h.2.2.2⟩
  unfold nameOrderSample
  exact ⟨_, List.mem_cons_self _ _, rfl⟩

/-- Witness for C7 at the sample data: the IP of the first record appears in
the plain-text list, and the CSV has one row per record. -/
theorem txt_dedup_sorted_spec_witness :
    "1.1.1.1" ∈ txt_ips nameOrderSample
    ∧ (csvRows nameOrderSample).length = nameOrderSample.length := by
  have h := txt_dedup_sorted_spec nameOrderSample
  refine ⟨(h.2.2.1 "1.1.1.1").mpr ?_, h.2.2.2.1⟩
  unfold nameOrderSample
  exact ⟨_, List.mem_cons_self _ _, rfl⟩

/-- Witness for C9 at a concrete generator and configuration. -/
theorem empty_result_aborts_witness :
    (mainRun (Except.ok []) ⟨"", "t"⟩ { api_endpoint := "e" }).1 ≠ 0
    ∧ (mainRun (Except.ok []) ⟨"", "t"⟩ { api_endpoint := "e" }).2 = [] :=
  empty_result_aborts ⟨"", "t"⟩ { api_endpoint := "e" }
